import Mathlib

/-!
# Tempest: the ARS(3,4,3) IMEX time-stepping scheme and `ExtractSurface`

A shallow embedding of `src/atm/TimestepSchemeARS343b.cpp` and of three
functions of `util/ExtractSurface/ExtractSurface.cpp`: `ParseVariableList`, the
range mode of `ParsePressureLevels`, and `InterpolationWeightsLinear`.

* `double` values are modelled by exact rationals (`ℚ`), the decimal constants
  of the source being read as the rationals they denote.
* `DataArray1D<T>` is modelled by `List T`; `Allocate n` yields `n` zeros,
  `a[i] = v` is `List.set`, and a read `a[i]` is `DataArray1D.index`.
* The constructor is split where the source is split by its comments: the
  assignments up to the recombination block (`assignCombos`), and the
  recombination block itself (`recombine`).
* `Step` is written against a record of collaborator operations in an
  arbitrary monad, so that the same text can be run with logging, with
  buffer arithmetic, and with failing collaborators.
* A `for (;;)` loop is modelled by its body, a function from the loop state to
  the next state or to `break`, iterated for a given number of passes.
-/

set_option linter.unusedVariables false

namespace Tempest

/-! ## Arrays -/

/-- The storage obtained from `DataArray1D<T>::Allocate(n)`: `n` zero entries. -/
def DataArray1D.Allocate {α : Type} [Zero α] (n : Nat) : List α :=
  List.replicate n 0

/-- The read access `a[i]` of a `DataArray1D<T>`. -/
def DataArray1D.index {α : Type} [Zero α] (a : List α) (i : Nat) : α :=
  a.getD i 0

/-- The read access `m[i][j]` of a two-dimensional C array. -/
def at2 (m : List (List ℚ)) (i j : Nat) : ℚ :=
  (m.getD i []).getD j 0

open DataArray1D

/-! ## Tableau constants (constructor, lines 55-87) -/

/-- The constant `dB1`. -/
def dB1 (dGamma : ℚ) : ℚ := -1.5 * dGamma * dGamma + 4.0 * dGamma - 0.25

/-- The constant `dB2`. -/
def dB2 (dGamma : ℚ) : ℚ := 1.5 * dGamma * dGamma - 5.0 * dGamma + 1.25

/-- The constant `dA31`. -/
def dA31 (dGamma dA42 dA43 : ℚ) : ℚ :=
  (1.0 - 4.5 * dGamma + 1.5 * dGamma * dGamma) * dA42
    + (2.75 - 10.5 * dGamma + 3.75 * dGamma * dGamma) * dA43
    - 3.5 + 13 * dGamma - 4.5 * dGamma * dGamma

/-- The constant `dA32`. -/
def dA32 (dGamma dA42 dA43 : ℚ) : ℚ :=
  (-1.0 + 4.5 * dGamma - 1.5 * dGamma * dGamma) * dA42
    + (-2.75 + 10.5 * dGamma - 3.75 * dGamma * dGamma) * dA43
    + 4.0 - 12.5 * dGamma + 4.5 * dGamma * dGamma

/-- The constant `dA41`. -/
def dA41 (dA42 dA43 : ℚ) : ℚ := 1.0 - dA42 - dA43

/-- Implicit stage coefficients `dImpCf[4][4]`. -/
def dImpCf (dGamma : ℚ) : List (List ℚ) :=
  [[dGamma, 0, 0, 0],
   [0.5 * (1.0 - dGamma), dGamma, 0, 0],
   [dB1 dGamma, dB2 dGamma, dGamma, 0],
   [dB1 dGamma, dB2 dGamma, dGamma, 0]]

/-- Explicit stage coefficients `dExpCf[4][4]`. -/
def dExpCf (dGamma dA42 dA43 : ℚ) : List (List ℚ) :=
  [[dGamma, 0, 0, 0],
   [dA31 dGamma dA42 dA43, dA32 dGamma dA42 dA43, 0, 0],
   [dA41 dA42 dA43, dA42, dA43, 0],
   [0, dB1 dGamma, dB2 dGamma, dGamma]]

/-! ## The scheme object -/

/-- The data members of `TimestepSchemeARS343b`. -/
structure TimestepSchemeARS343b where
  m_iCopyInst : List (List Nat)
  m_dCopyInst : List (List ℚ)
  m_dDiagExpCf : List ℚ
  m_dDiagImpCf : List ℚ
  m_iU2fCombo : List Nat
  m_dU2fCombo : List ℚ
  m_iU3fCombo : List Nat
  m_dU3fCombo : List ℚ
  m_iU4fCombo : List Nat
  m_dU4fCombo : List ℚ
  deriving DecidableEq

/-- Constructor, lines 30-149: allocation, the copy combinations, the diagonal
coefficients and the first assignment of the three stage combinations, for a
tableau with implicit matrix `I` and explicit matrix `E`. -/
def assignCombos (I E : List (List ℚ)) : TimestepSchemeARS343b :=
  let m_iU2fCombo : List Nat := Allocate 3
  let m_dU2fCombo : List ℚ := Allocate 3
  let m_iU3fCombo : List Nat := Allocate 5
  let m_dU3fCombo : List ℚ := Allocate 5
  let m_iU4fCombo : List Nat := Allocate 7
  let m_dU4fCombo : List ℚ := Allocate 7
  let m_dDiagExpCf : List ℚ := Allocate 4
  let m_dDiagImpCf : List ℚ := Allocate 4
  -- Initialize linear combinations corresponding to direct copies
  let m_iCopyInst : List (List Nat) :=
    (List.range 7).map (fun s => (Allocate 1 : List Nat).set 0 s)
  let m_dCopyInst : List (List ℚ) :=
    (List.range 7).map (fun _ => (Allocate 1 : List ℚ).set 0 1.0)
  -- Diagonal explicit coefficients
  let m_dDiagExpCf := m_dDiagExpCf.set 0 (at2 E 0 0)
  let m_dDiagExpCf := m_dDiagExpCf.set 1 (at2 E 1 1)
  let m_dDiagExpCf := m_dDiagExpCf.set 2 (at2 E 2 2)
  let m_dDiagExpCf := m_dDiagExpCf.set 3 (at2 E 3 3)
  -- Diagonal implicit coefficients
  let m_dDiagImpCf := m_dDiagImpCf.set 0 (at2 I 0 0)
  let m_dDiagImpCf := m_dDiagImpCf.set 1 (at2 I 1 1)
  let m_dDiagImpCf := m_dDiagImpCf.set 2 (at2 I 2 2)
  let m_dDiagImpCf := m_dDiagImpCf.set 3 (at2 I 3 3)
  -- u2 explicit evaluation combination
  let m_iU2fCombo := m_iU2fCombo.set 0 0
  let m_iU2fCombo := m_iU2fCombo.set 1 1
  let m_iU2fCombo := m_iU2fCombo.set 2 2
  let m_dU2fCombo := m_dU2fCombo.set 0 (1.0 - at2 E 1 0 / at2 E 0 0)
  let m_dU2fCombo := m_dU2fCombo.set 1 (at2 E 1 0 / at2 E 0 0 - at2 I 1 0 / at2 I 0 0)
  let m_dU2fCombo := m_dU2fCombo.set 2 (at2 I 1 0 / at2 I 0 0)
  -- u3 explicit evaluation combination
  let m_iU3fCombo := m_iU3fCombo.set 0 0
  let m_iU3fCombo := m_iU3fCombo.set 1 1
  let m_iU3fCombo := m_iU3fCombo.set 2 2
  let m_iU3fCombo := m_iU3fCombo.set 3 3
  let m_iU3fCombo := m_iU3fCombo.set 4 4
  let m_dU3fCombo := m_dU3fCombo.set 0 (1.0 - at2 E 2 0 / at2 E 0 0)
  let m_dU3fCombo := m_dU3fCombo.set 1 (at2 E 2 0 / at2 E 0 0 - at2 I 2 0 / at2 I 0 0)
  let m_dU3fCombo := m_dU3fCombo.set 2 (at2 I 2 0 / at2 I 0 0)
  let m_dU3fCombo := m_dU3fCombo.set 3 (at2 E 2 1 / at2 E 1 1 - at2 I 2 1 / at2 I 1 1)
  let m_dU3fCombo := m_dU3fCombo.set 4 (at2 I 2 1 / at2 I 1 1)
  -- u4 explicit evaluation combination
  let m_iU4fCombo := m_iU4fCombo.set 0 0
  let m_iU4fCombo := m_iU4fCombo.set 1 1
  let m_iU4fCombo := m_iU4fCombo.set 2 2
  let m_iU4fCombo := m_iU4fCombo.set 3 3
  let m_iU4fCombo := m_iU4fCombo.set 4 4
  let m_iU4fCombo := m_iU4fCombo.set 5 5
  let m_iU4fCombo := m_iU4fCombo.set 6 6
  let m_dU4fCombo := m_dU4fCombo.set 0 (1.0 - at2 E 3 0 / at2 E 0 0)
  let m_dU4fCombo := m_dU4fCombo.set 1 (at2 E 3 0 / at2 E 0 0 - at2 I 3 0 / at2 I 0 0)
  let m_dU4fCombo := m_dU4fCombo.set 2 (at2 I 3 0 / at2 I 0 0)
  let m_dU4fCombo := m_dU4fCombo.set 3 (at2 E 3 1 / at2 E 1 1 - at2 I 3 1 / at2 I 1 1)
  let m_dU4fCombo := m_dU4fCombo.set 4 (at2 I 3 1 / at2 I 1 1)
  let m_dU4fCombo := m_dU4fCombo.set 5 (at2 E 3 2 / at2 E 2 2 - at2 I 3 2 / at2 I 2 2)
  let m_dU4fCombo := m_dU4fCombo.set 6 (at2 I 3 2 / at2 I 2 2)
  { m_iCopyInst := m_iCopyInst, m_dCopyInst := m_dCopyInst,
    m_dDiagExpCf := m_dDiagExpCf, m_dDiagImpCf := m_dDiagImpCf,
    m_iU2fCombo := m_iU2fCombo, m_dU2fCombo := m_dU2fCombo,
    m_iU3fCombo := m_iU3fCombo, m_dU3fCombo := m_dU3fCombo,
    m_iU4fCombo := m_iU4fCombo, m_dU4fCombo := m_dU4fCombo }

/-- Constructor, lines 126, 148-149 and 151-167: the recombination terms, applied
to the members in source order (`a[i] += v`, so the stage-4 updates read the
already updated `m_dU3fCombo`). -/
def recombine (E : List (List ℚ)) (t : TimestepSchemeARS343b) : TimestepSchemeARS343b :=
  let dU3fCombo7 : ℚ := -at2 E 2 1 / at2 E 1 1
  let dU4fCombo7 : ℚ := -at2 E 3 1 / at2 E 1 1
  let dU4fCombo8 : ℚ := -at2 E 3 2 / at2 E 2 2
  let m_dU2fCombo := t.m_dU2fCombo
  let m_dU3fCombo := t.m_dU3fCombo
  let m_dU4fCombo := t.m_dU4fCombo
  -- Recombination terms
  let m_dU3fCombo := m_dU3fCombo.set 0 (index m_dU3fCombo 0 + dU3fCombo7 * index m_dU2fCombo 0)
  let m_dU3fCombo := m_dU3fCombo.set 1 (index m_dU3fCombo 1 + dU3fCombo7 * index m_dU2fCombo 1)
  let m_dU3fCombo := m_dU3fCombo.set 2 (index m_dU3fCombo 2 + dU3fCombo7 * index m_dU2fCombo 2)
  let m_dU4fCombo := m_dU4fCombo.set 0
    (index m_dU4fCombo 0 + (dU4fCombo7 * index m_dU2fCombo 0 + dU4fCombo8 * index m_dU3fCombo 0))
  let m_dU4fCombo := m_dU4fCombo.set 1
    (index m_dU4fCombo 1 + (dU4fCombo7 * index m_dU2fCombo 1 + dU4fCombo8 * index m_dU3fCombo 1))
  let m_dU4fCombo := m_dU4fCombo.set 2
    (index m_dU4fCombo 2 + (dU4fCombo7 * index m_dU2fCombo 2 + dU4fCombo8 * index m_dU3fCombo 2))
  let m_dU4fCombo := m_dU4fCombo.set 3 (index m_dU4fCombo 3 + dU4fCombo8 * index m_dU3fCombo 3)
  let m_dU4fCombo := m_dU4fCombo.set 4 (index m_dU4fCombo 4 + dU4fCombo8 * index m_dU3fCombo 4)
  { t with m_dU3fCombo := m_dU3fCombo, m_dU4fCombo := m_dU4fCombo }

/-- The whole constructor body for a tableau `(I, E)`. -/
def construct (I E : List (List ℚ)) : TimestepSchemeARS343b :=
  recombine E (assignCombos I E)

/-- The literal `dGamma` of the source. -/
def dGamma : ℚ := 0.4358665215084590

/-- The literal `dA42` of the source. -/
def dA42 : ℚ := 0.5529291480359398

/-- The literal `dA43` of the source. -/
def dA43 : ℚ := 0.5529291480359398

/-- The implicit matrix of the source, at its literals. -/
def ImpCf : List (List ℚ) := dImpCf dGamma

/-- The explicit matrix of the source, at its literals. -/
def ExpCf : List (List ℚ) := dExpCf dGamma dA42 dA43

/-- The object built by `TimestepSchemeARS343b::TimestepSchemeARS343b`. -/
def TimestepSchemeARS343b.new : TimestepSchemeARS343b :=
  construct ImpCf ExpCf

/-! ## Collaborators and `Step` -/

/-- The field categories passed to `PostProcessSubstage`. -/
inductive DataType where
  | DataType_State
  | DataType_Tracers
  deriving DecidableEq, Repr

/-- The operations `Step` invokes on `HorizontalDynamics` and `Grid`, as effects
of a monad `m`. The integer arguments are named after the contract given in the
specification: the first index is the source, the second the target. -/
structure Collaborators (m : Type → Type) (Time : Type) where
  StepExplicitCombine :
    (iCombo : List Nat) → (dCombo : List ℚ) → (sourceIndex targetIndex : Nat) →
      (time : Time) → (dDeltaT : ℚ) → m Unit
  StepImplicitCombine :
    (iCombo : List Nat) → (dCombo : List ℚ) → (sourceIndex targetIndex : Nat) →
      (time : Time) → (dDeltaT : ℚ) → m Unit
  PostProcessSubstage : (bufferIndex : Nat) → (fieldCategory : DataType) → m Unit
  StepAfterSubCycleCombine :
    (sourceIndex targetIndex : Nat) → (time : Time) → (dDeltaT : ℚ) → m Unit

/-- The read access `m_iCopyInst[s]` / `m_dCopyInst[s]` of an array of arrays. -/
def copyInst {α : Type} (a : List (List α)) (s : Nat) : List α :=
  a.getD s []

/-- The method `TimestepSchemeARS343b::Step`. -/
def TimestepSchemeARS343b.Step {m : Type → Type} [Monad m] {Time : Type}
    (self : TimestepSchemeARS343b) (c : Collaborators m Time)
    (fFirstStep fLastStep : Bool) (time : Time) (dDeltaT : ℚ) : m Unit := do
  -- STAGE 1
  -- Compute uf1 into index 1
  c.StepExplicitCombine (copyInst self.m_iCopyInst 0) (copyInst self.m_dCopyInst 0)
    0 1 time (index self.m_dDiagExpCf 0 * dDeltaT)
  c.PostProcessSubstage 1 DataType.DataType_State
  c.PostProcessSubstage 1 DataType.DataType_Tracers
  -- Compute u1 into index 2
  c.StepImplicitCombine (copyInst self.m_iCopyInst 1) (copyInst self.m_dCopyInst 1)
    1 2 time (index self.m_dDiagImpCf 0 * dDeltaT)
  -- STAGE 2
  -- Compute uf2 from u1 (index 2) into index 3
  c.StepExplicitCombine self.m_iU2fCombo self.m_dU2fCombo
    2 3 time (index self.m_dDiagExpCf 1 * dDeltaT)
  c.PostProcessSubstage 3 DataType.DataType_State
  c.PostProcessSubstage 3 DataType.DataType_Tracers
  -- Compute u2 from uf2 (index 3) into index 4
  c.StepImplicitCombine (copyInst self.m_iCopyInst 3) (copyInst self.m_dCopyInst 3)
    3 4 time (index self.m_dDiagImpCf 1 * dDeltaT)
  -- STAGE 3
  -- Compute uf3 from u2 (index 4) into index 5
  c.StepExplicitCombine self.m_iU3fCombo self.m_dU3fCombo
    4 5 time (index self.m_dDiagExpCf 2 * dDeltaT)
  c.PostProcessSubstage 5 DataType.DataType_State
  c.PostProcessSubstage 5 DataType.DataType_Tracers
  -- Compute u3 from uf3 into index 6
  c.StepImplicitCombine (copyInst self.m_iCopyInst 5) (copyInst self.m_dCopyInst 5)
    5 6 time (index self.m_dDiagImpCf 2 * dDeltaT)
  -- STAGE 4
  -- Compute uf4 from u3 (index 6) into index 0
  c.StepExplicitCombine self.m_iU4fCombo self.m_dU4fCombo
    6 0 time (index self.m_dDiagExpCf 3 * dDeltaT)
  c.PostProcessSubstage 0 DataType.DataType_State
  c.PostProcessSubstage 0 DataType.DataType_Tracers
  -- NO IMPLICIT STEP ON THE LAST STAGE
  -- Apply hyperdiffusion at the end of the explicit substep
  c.StepAfterSubCycleCombine 0 1 time dDeltaT

/-! ## Observing a run of `Step` -/

/-- One collaborator call together with its arguments. -/
inductive Call (Time : Type) where
  | StepExplicitCombine (iCombo : List Nat) (dCombo : List ℚ)
      (sourceIndex targetIndex : Nat) (time : Time) (dDeltaT : ℚ)
  | StepImplicitCombine (iCombo : List Nat) (dCombo : List ℚ)
      (sourceIndex targetIndex : Nat) (time : Time) (dDeltaT : ℚ)
  | PostProcessSubstage (bufferIndex : Nat) (fieldCategory : DataType)
  | StepAfterSubCycleCombine (sourceIndex targetIndex : Nat) (time : Time) (dDeltaT : ℚ)
  deriving DecidableEq

/-- The state observed around a run: the collaborators' own state (the buffer
pool) and the calls received so far, oldest first. -/
structure World (Pool Time : Type) where
  pool : Pool
  log : List (Call Time)

/-- Receipt of the call `c` by collaborators that never fail: the call is
appended to the log and then acts on the pool as `sem` prescribes. -/
def receive {Pool Time : Type} (sem : Call Time → Pool → Pool) (c : Call Time) :
    StateM (World Pool Time) Unit :=
  modify fun w => ⟨sem c w.pool, w.log ++ [c]⟩

/-- Collaborators that never fail. -/
def recording {Pool Time : Type} (sem : Call Time → Pool → Pool) :
    Collaborators (StateM (World Pool Time)) Time where
  StepExplicitCombine := fun i d a b t h => receive sem (.StepExplicitCombine i d a b t h)
  StepImplicitCombine := fun i d a b t h => receive sem (.StepImplicitCombine i d a b t h)
  PostProcessSubstage := fun b k => receive sem (.PostProcessSubstage b k)
  StepAfterSubCycleCombine := fun a b t h => receive sem (.StepAfterSubCycleCombine a b t h)

/-- The world after one call of `Step` with non-failing collaborators. -/
def runStep {Pool Time : Type} (self : TimestepSchemeARS343b)
    (sem : Call Time → Pool → Pool) (fFirstStep fLastStep : Bool) (time : Time)
    (dDeltaT : ℚ) (w : World Pool Time) : World Pool Time :=
  ((self.Step (recording sem) fFirstStep fLastStep time dDeltaT).run w).2

/-- The calls issued by one call of `Step`, in order. -/
def stepCalls {Time : Type} (self : TimestepSchemeARS343b)
    (fFirstStep fLastStep : Bool) (time : Time) (dDeltaT : ℚ) : List (Call Time) :=
  (runStep self (fun _ (p : Unit) => p) fFirstStep fLastStep time dDeltaT ⟨(), []⟩).log

/-- Receipt of the call `c` by collaborators that may throw: the call is logged,
the pool is left as `sem` leaves it, and an exception aborts what follows. -/
def receiveFallible {Pool Time ε : Type} (sem : Call Time → Pool → Except ε Unit × Pool)
    (c : Call Time) : ExceptT ε (StateM (World Pool Time)) Unit :=
  ExceptT.mk fun w => ((sem c w.pool).1, ⟨(sem c w.pool).2, w.log ++ [c]⟩)

/-- Collaborators that may throw. -/
def fallible {Pool Time ε : Type} (sem : Call Time → Pool → Except ε Unit × Pool) :
    Collaborators (ExceptT ε (StateM (World Pool Time))) Time where
  StepExplicitCombine := fun i d a b t h =>
    receiveFallible sem (.StepExplicitCombine i d a b t h)
  StepImplicitCombine := fun i d a b t h =>
    receiveFallible sem (.StepImplicitCombine i d a b t h)
  PostProcessSubstage := fun b k => receiveFallible sem (.PostProcessSubstage b k)
  StepAfterSubCycleCombine := fun a b t h =>
    receiveFallible sem (.StepAfterSubCycleCombine a b t h)

/-- The outcome of one call of `Step` with collaborators that may throw:
the result (`ok` or the exception) and the world that is left. -/
def runStepFallible {Pool Time ε : Type} (self : TimestepSchemeARS343b)
    (sem : Call Time → Pool → Except ε Unit × Pool) (fFirstStep fLastStep : Bool)
    (time : Time) (dDeltaT : ℚ) (w : World Pool Time) : Except ε Unit × World Pool Time :=
  ((self.Step (fallible sem) fFirstStep fLastStep time dDeltaT).run).run w

/-! ## Vocabulary for the properties -/

/-- The weighted sum `Σ dCombo[k] * pool[iCombo[k]]` described by a combination. -/
def comboSum (iCombo : List Nat) (dCombo : List ℚ) (pool : Nat → ℚ) : ℚ :=
  ((iCombo.zip dCombo).map fun p => p.2 * pool p.1).sum

/-- The weight a combination puts on buffer `slot`: the sum of the weights of
its terms whose index is `slot`. -/
def weightOn (iCombo : List Nat) (dCombo : List ℚ) (slot : Nat) : ℚ :=
  (((iCombo.zip dCombo).filter fun p => p.1 == slot).map fun p => p.2).sum

/-- What a call is, without its coefficients and timing. -/
inductive Shape where
  | explicitCombine (targetIndex : Nat)
  | implicitCombine
  | postProcess (bufferIndex : Nat) (fieldCategory : DataType)
  | afterSubCycle
  deriving DecidableEq, Repr

/-- The shape of a call. -/
def Call.shape {Time : Type} : Call Time → Shape
  | .StepExplicitCombine _ _ _ b _ _ => .explicitCombine b
  | .StepImplicitCombine _ _ _ _ _ _ => .implicitCombine
  | .PostProcessSubstage b k => .postProcess b k
  | .StepAfterSubCycleCombine _ _ _ _ => .afterSubCycle

/-- The calls a stage is specified to make: an explicit combine into `target`,
the post-processing of `target` for the state and for the tracers, and, unless
the stage is the last one, an implicit combine. -/
def stageShape (target : Nat) (isLast : Bool) : List Shape :=
  [.explicitCombine target,
   .postProcess target DataType.DataType_State,
   .postProcess target DataType.DataType_Tracers]
    ++ (if isLast then [] else [.implicitCombine])

/-- The three kinds of call that carry a time and a step size. -/
inductive Timed where
  | explicitCombine
  | implicitCombine
  | afterSubCycle
  deriving DecidableEq, Repr

/-- The time and step size a call receives, if it receives any. -/
def Call.timing {Time : Type} : Call Time → Option (Timed × Time × ℚ)
  | .StepExplicitCombine _ _ _ _ t h => some (.explicitCombine, t, h)
  | .StepImplicitCombine _ _ _ _ t h => some (.implicitCombine, t, h)
  | .PostProcessSubstage _ _ => none
  | .StepAfterSubCycleCombine _ _ t h => some (.afterSubCycle, t, h)

/-- The source index of a call, read with the specified signatures. -/
def Call.sourceIndex {Time : Type} : Call Time → Option Nat
  | .StepExplicitCombine _ _ a _ _ _ => some a
  | .StepImplicitCombine _ _ a _ _ _ => some a
  | .PostProcessSubstage _ _ => none
  | .StepAfterSubCycleCombine a _ _ _ => some a

/-- The target index of a call, read with the specified signatures. -/
def Call.targetIndex {Time : Type} : Call Time → Option Nat
  | .StepExplicitCombine _ _ _ b _ _ => some b
  | .StepImplicitCombine _ _ _ b _ _ => some b
  | .PostProcessSubstage _ _ => none
  | .StepAfterSubCycleCombine _ b _ _ => some b

/-- The buffers a call is allowed to modify when every combine call writes only
its target and post-processing acts in place; nothing is assumed of the
after-subcycle call. -/
def Call.mayWrite {Time : Type} : Call Time → Nat → Bool
  | .StepExplicitCombine _ _ _ b _ _, i => i == b
  | .StepImplicitCombine _ _ _ b _ _, i => i == b
  | .PostProcessSubstage b _, i => i == b
  | .StepAfterSubCycleCombine _ _ _ _, _ => true

/-- No-op physics: a combine call writes the weighted sum of its combination
into its target, post-processing changes nothing, and the after-subcycle call
copies its source to its target. -/
structure NoopPhysics {Time : Type} (sem : Call Time → (Nat → ℚ) → (Nat → ℚ)) : Prop where
  explicitCombine : ∀ i d a b t h p,
    sem (.StepExplicitCombine i d a b t h) p = Function.update p b (comboSum i d p)
  implicitCombine : ∀ i d a b t h p,
    sem (.StepImplicitCombine i d a b t h) p = Function.update p b (comboSum i d p)
  postProcess : ∀ b k p, sem (.PostProcessSubstage b k) p = p
  afterSubCycle : ∀ a b t h p,
    sem (.StepAfterSubCycleCombine a b t h) p = Function.update p b (p a)

/-- The collaborators of no-op physics, as a function. -/
def noopPhysics {Time : Type} : Call Time → (Nat → ℚ) → (Nat → ℚ)
  | .StepExplicitCombine i d _ b _ _, p => Function.update p b (comboSum i d p)
  | .StepImplicitCombine i d _ b _ _, p => Function.update p b (comboSum i d p)
  | .PostProcessSubstage _ _, p => p
  | .StepAfterSubCycleCombine a b _ _, p => Function.update p b (p a)

/-- The buffers of one step whose explicit tendencies are `f1, f2, f3` and whose
implicit corrections are `g1, g2, g3`, filled in stage order: each explicit
buffer is the scheme's stage combination of the buffers so far plus the own
explicit term, each implicit buffer adds the own implicit term. -/
def imexBuffers (self : TimestepSchemeARS343b) (I E : List (List ℚ))
    (u0 f1 f2 f3 g1 g2 g3 : ℚ) : Nat → ℚ :=
  let p : Nat → ℚ := fun _ => 0
  let p := Function.update p 0 u0
  let p := Function.update p 1 (p 0 + at2 E 0 0 * f1)
  let p := Function.update p 2 (p 1 + at2 I 0 0 * g1)
  let p := Function.update p 3 (comboSum self.m_iU2fCombo self.m_dU2fCombo p + at2 E 1 1 * f2)
  let p := Function.update p 4 (p 3 + at2 I 1 1 * g2)
  let p := Function.update p 5 (comboSum self.m_iU3fCombo self.m_dU3fCombo p + at2 E 2 2 * f3)
  let p := Function.update p 6 (p 5 + at2 I 2 2 * g3)
  p

/-- The implicit combine call that `Step` issues in stage `s` (`s = 1, 2, 3`). -/
def implicitCall {Time : Type} (self : TimestepSchemeARS343b) (s : Nat) (time : Time)
    (dDeltaT : ℚ) : Call Time :=
  .StepImplicitCombine (copyInst self.m_iCopyInst (2 * s - 1))
    (copyInst self.m_dCopyInst (2 * s - 1)) (2 * s - 1) (2 * s) time
    (index self.m_dDiagImpCf (s - 1) * dDeltaT)

/-- A collaborator stub that throws `e` on the call `bad` and otherwise behaves
as no-op physics. -/
def throwingOn {Time ε : Type} [DecidableEq Time] (bad : Call Time) (e : ε) :
    Call Time → (Nat → ℚ) → Except ε Unit × (Nat → ℚ) :=
  fun c p => if c = bad then (.error e, p) else (.ok (), noopPhysics c p)

/-- The buffers a combine call reads: the indices listed in its combination and
its source index. Calls that are not combine calls list none. -/
def Call.reads {Time : Type} : Call Time → List Nat
  | .StepExplicitCombine i _ a _ _ _ => i ++ [a]
  | .StepImplicitCombine i _ a _ _ _ => i ++ [a]
  | .PostProcessSubstage _ _ => []
  | .StepAfterSubCycleCombine _ _ _ _ => []

/-- The target index of an explicit or implicit combine call. -/
def Call.combineTarget {Time : Type} : Call Time → Option Nat
  | .StepExplicitCombine _ _ _ b _ _ => some b
  | .StepImplicitCombine _ _ _ b _ _ => some b
  | .PostProcessSubstage _ _ => none
  | .StepAfterSubCycleCombine _ _ _ _ => none

/-- The buffers a call writes when every call keeps to its contract: a combine
call and the after-subcycle call write their target, post-processing writes the
buffer it is given. -/
def Call.writes {Time : Type} : Call Time → Nat → Bool
  | .StepExplicitCombine _ _ _ b _ _, i => i == b
  | .StepImplicitCombine _ _ _ b _ _, i => i == b
  | .PostProcessSubstage b _, i => i == b
  | .StepAfterSubCycleCombine _ b _ _, i => i == b

/-- Every buffer index a call mentions: combination indices, source, target,
post-processed buffer. -/
def Call.indices {Time : Type} : Call Time → List Nat
  | .StepExplicitCombine i _ a b _ _ => i ++ [a, b]
  | .StepImplicitCombine i _ a b _ _ => i ++ [a, b]
  | .PostProcessSubstage b _ => [b]
  | .StepAfterSubCycleCombine a b _ _ => [a, b]

/-- Whether a call is an implicit combine. -/
def Call.isImplicit {Time : Type} : Call Time → Bool
  | .StepImplicitCombine _ _ _ _ _ _ => true
  | _ => false

/-- A weight array extended with zeros to `n` entries. -/
def padTo (n : Nat) (l : List ℚ) : List ℚ :=
  l ++ List.replicate (n - l.length) 0

/-- Slot by slot, `a` plus `c` times `b`, the shorter array `b` being padded
with zeros on the newest slots. -/
def addScaled (a : List ℚ) (c : ℚ) (b : List ℚ) : List ℚ :=
  List.zipWith (fun x y => x + c * y) a (padTo a.length b)

/-! ## `ExtractSurface.cpp`: `ParseVariableList`

A `std::string` is modelled by its list of characters and a
`std::vector<std::string>` by a list of such lists. The `int` positions are
natural numbers; they never exceed the length of the string plus one, so the
model is that of the source for strings shorter than `2^31 - 1` characters.
-/

/-- The character `,`. -/
def comma : Char := Char.ofNat 44

/-- The character ` ` (space). -/
def blank : Char := Char.ofNat 32

/-- The read `str[i]` of a `std::string`. -/
def charAt (str : List Char) (i : Nat) : Char :=
  str.getD i (Char.ofNat 0)

/-- The call `str.substr(pos, n)` of a `std::string`. -/
def substr (str : List Char) (pos n : Nat) : List Char :=
  (str.drop pos).take n

/-- The variables of `ParseVariableList` that change in its loop. -/
structure ParseVariableListState where
  iVarBegin : Nat
  iVarCurrent : Nat
  vecVariableStrings : List (List Char)
  deriving DecidableEq, Repr

/-- One pass through the body of the `for (;;)` of `ParseVariableList`. The
result `none` is `break`; `some st` is the state in which the next pass starts,
reached by `continue` (nothing has changed) or by the end of the body (after
`iVarCurrent++`). -/
def ParseVariableListBody (strVariables : List Char) (st : ParseVariableListState) :
    Option ParseVariableListState :=
  if decide (st.iVarCurrent ≥ strVariables.length)
      || charAt strVariables st.iVarCurrent == comma
      || charAt strVariables st.iVarCurrent == blank then
    if st.iVarCurrent = st.iVarBegin then
      if st.iVarCurrent ≥ strVariables.length then
        none
      else
        some st
    else
      some
        { iVarBegin := st.iVarCurrent + 1
          iVarCurrent := st.iVarCurrent + 1
          vecVariableStrings := st.vecVariableStrings ++
            [substr strVariables st.iVarBegin (st.iVarCurrent - st.iVarBegin)] }
  else
    some { st with iVarCurrent := st.iVarCurrent + 1 }

/-- Where the loop of `ParseVariableList` stands after a number of passes: it
has left through `break` with the vector it built, or it is about to start a
pass in some state. -/
inductive ParseVariableListOutcome where
  | returned (vecVariableStrings : List (List Char))
  | running (st : ParseVariableListState)
  deriving DecidableEq, Repr

/-- The loop of `ParseVariableList`, run for at most `fuel` passes from `st`. -/
def ParseVariableListLoop (strVariables : List Char) :
    Nat → ParseVariableListState → ParseVariableListOutcome
  | 0, st => .running st
  | fuel + 1, st =>
    match ParseVariableListBody strVariables st with
    | none => .returned st.vecVariableStrings
    | some st2 => ParseVariableListLoop strVariables fuel st2

/-- The function `ParseVariableList`, run for at most `fuel` passes of its loop:
the vector it leaves in `vecVariableStrings`, or `none` when the loop has not
ended within `fuel` passes. -/
def ParseVariableList (fuel : Nat) (strVariables : List Char)
    (vecVariableStrings : List (List Char)) : Option (List (List Char)) :=
  match ParseVariableListLoop strVariables fuel
      { iVarBegin := 0, iVarCurrent := 0, vecVariableStrings := vecVariableStrings } with
  | .returned v => some v
  | .running _ => none

/-- Whether a character is one of the two delimiters `,` and space. -/
def isDelimiter (c : Char) : Bool :=
  c == comma || c == blank

/-- Whether the string has a delimiter at index 0. -/
def startsWithDelimiter : List Char → Bool
  | [] => false
  | c :: _ => isDelimiter c

/-- Whether somewhere in the string a delimiter immediately follows another
delimiter. -/
def hasAdjacentDelimiters : List Char → Bool
  | a :: b :: rest => (isDelimiter a && isDelimiter b) || hasAdjacentDelimiters (b :: rest)
  | _ => false

/-- The maximal non-empty substrings of `str` that contain no delimiter, from
left to right. -/
def fields (str : List Char) : List (List Char) :=
  (str.splitOnP isDelimiter).filter fun f => !f.isEmpty

/-- The fields of `acc ++ rest` when `acc`, the part of the current field
scanned so far, contains no delimiter. -/
def fieldsAfter (acc rest : List Char) : List (List Char) :=
  ((rest.splitOnP isDelimiter).modifyHead fun f => acc ++ f).filter fun f => !f.isEmpty

/-- Whether a scan that has read the delimiter-free part `acc` of a field and
has `rest` before it meets no empty field: no delimiter right at the start of a
field, none right after another. -/
def scanOk (acc rest : List Char) : Bool :=
  !(acc.isEmpty && startsWithDelimiter rest) && !hasAdjacentDelimiters rest

/-! ## `ExtractSurface.cpp`: range mode of `ParsePressureLevels`

Lines 171-205, the block that follows the parsing loop: it starts from the
flag `fRangeMode` and the vector `vecPressureLevels` that the parsing loop has
left. A `double` is an exact rational.
-/

/-- The exceptions raised by the range-mode block, in source order:
"Exactly three pressure level entries required for range mode",
"Pressure step size cannot be zero",
"Too many pressure levels in range (limit 10000)",
"Sign mismatch in pressure step". -/
inductive PressureLevelError where
  | notThreeEntries
  | zeroStep
  | tooManyLevels
  | signMismatch
  deriving DecidableEq, Repr

/-- The read `vec[i]` of a `std::vector<double>` or a `DataVector<double>`. -/
def DataVector.get (vec : List ℚ) (i : Nat) : ℚ :=
  vec.getD i 0

/-- The loop `for (int i = 0 ;; i++)` of lines 192-204, run for at most `fuel`
passes from the pass with counter `i`: the vector at `break`, or `none` when
the loop has not ended within `fuel` passes. -/
def repopulateLoop (dPressureBegin dPressureStep dPressureEnd : ℚ) :
    Nat → Nat → List ℚ → Option (List ℚ)
  | 0, _, _ => none
  | fuel + 1, i, vecPressureLevels =>
    let dPressureLevel := dPressureBegin + (i : ℚ) * dPressureStep
    if dPressureStep > 0 ∧ dPressureLevel > dPressureEnd then
      some vecPressureLevels
    else if dPressureStep < 0 ∧ dPressureLevel < dPressureEnd then
      some vecPressureLevels
    else
      repopulateLoop dPressureBegin dPressureStep dPressureEnd fuel (i + 1)
        (vecPressureLevels ++ [dPressureLevel])

/-- The range-mode block of `ParsePressureLevels` (lines 171-205), run for at
most `fuel` passes of its loop: `none` when the loop has not ended within
`fuel` passes, otherwise the exception raised or the vector left in
`vecPressureLevels`. -/
def ParsePressureLevelsRange (fuel : Nat) (fRangeMode : Bool) (vecPressureLevels : List ℚ) :
    Option (Except PressureLevelError (List ℚ)) :=
  if fRangeMode then
    if vecPressureLevels.length ≠ 3 then
      some (.error .notThreeEntries)
    else
      let dPressureBegin := DataVector.get vecPressureLevels 0
      let dPressureStep := DataVector.get vecPressureLevels 1
      let dPressureEnd := DataVector.get vecPressureLevels 2
      if dPressureStep = 0 then
        some (.error .zeroStep)
      else if (dPressureEnd - dPressureBegin) / dPressureStep > 10000 then
        some (.error .tooManyLevels)
      else if (dPressureEnd - dPressureBegin) / dPressureStep < 0 then
        some (.error .signMismatch)
      else
        (repopulateLoop dPressureBegin dPressureStep dPressureEnd fuel 0 []).map .ok
  else
    some (.ok vecPressureLevels)

/-- The arithmetic progression `begin + i * step` for
`i = 0, 1, ..., floor((end - begin) / step)`. -/
def progression (dPressureBegin dPressureStep dPressureEnd : ℚ) : List ℚ :=
  (List.range (⌊(dPressureEnd - dPressureBegin) / dPressureStep⌋₊ + 1)).map
    fun i : Nat => dPressureBegin + (i : ℚ) * dPressureStep

/-! ## `ExtractSurface.cpp`: `InterpolationWeightsLinear` -/

/-- The outputs of `InterpolationWeightsLinear`: the reference arguments
`kBegin`, `kEnd` and `dW`. -/
structure InterpolationWeights where
  kBegin : Nat
  kEnd : Nat
  dW : List ℚ
  deriving DecidableEq, Repr

/-- The loop `for (int k = 0; k < nLev-1; k++)` of lines 267-279, from the pass
with counter `k`. It makes at most `nLev - 1` passes, so it is run with a
counter `fuel` of remaining passes that the caller sets to `nLev`. -/
def interiorLoop (dP : ℚ) (dataP : List ℚ) (nLev : Nat) :
    Nat → Nat → InterpolationWeights → InterpolationWeights
  | 0, _, out => out
  | fuel + 1, k, out =>
    if k < nLev - 1 then
      if dP ≥ DataVector.get dataP (k + 1) then
        let dW := out.dW.set k
          ((DataVector.get dataP (k + 1) - dP)
            / (DataVector.get dataP (k + 1) - DataVector.get dataP k))
        let dW := dW.set (k + 1) (1.0 - DataVector.get dW k)
        { kBegin := k, kEnd := k + 2, dW := dW }
      else
        interiorLoop dP dataP nLev fuel (k + 1) out
    else
      out

/-- The function `InterpolationWeightsLinear`. The reference arguments enter
as `out` and leave as the result. Line 259 reads `dW[k]` in a branch where no
`k` is declared; the index it denotes is the parameter `kUndeclared`. -/
def InterpolationWeightsLinear (kUndeclared : Nat) (dP : ℚ) (dataP : List ℚ)
    (out : InterpolationWeights) : InterpolationWeights :=
  let nLev := dataP.length
  if dP > DataVector.get dataP 0 then
    let dW := out.dW.set 0
      ((DataVector.get dataP 1 - dP) / (DataVector.get dataP 1 - DataVector.get dataP 0))
    let dW := dW.set 1 (1.0 - DataVector.get dW kUndeclared)
    { kBegin := 0, kEnd := 2, dW := dW }
  else if dP < DataVector.get dataP (nLev - 1) then
    { kBegin := nLev - 1, kEnd := nLev, dW := out.dW.set (nLev - 1) 1.0 }
  else
    interiorLoop dP dataP nLev nLev 0 out

lemma construct_iU2fCombo (I E : List (List ℚ)) :
    (construct I E).m_iU2fCombo = [0, 1, 2] := rfl

lemma construct_iU3fCombo (I E : List (List ℚ)) :
    (construct I E).m_iU3fCombo = [0, 1, 2, 3, 4] := rfl

lemma construct_iU4fCombo (I E : List (List ℚ)) :
    (construct I E).m_iU4fCombo = [0, 1, 2, 3, 4, 5, 6] := rfl

lemma construct_dU2fCombo (I E : List (List ℚ)) :
    (construct I E).m_dU2fCombo =
      [1 - at2 E 1 0 / at2 E 0 0,
       at2 E 1 0 / at2 E 0 0 - at2 I 1 0 / at2 I 0 0,
       at2 I 1 0 / at2 I 0 0] := by
  have h : (1.0 : ℚ) = 1 := by norm_num
  rw [← h]
  rfl

lemma construct_dU3fCombo (I E : List (List ℚ)) :
    (construct I E).m_dU3fCombo =
      [1 - at2 E 2 0 / at2 E 0 0 + -at2 E 2 1 / at2 E 1 1 * (1 - at2 E 1 0 / at2 E 0 0),
       at2 E 2 0 / at2 E 0 0 - at2 I 2 0 / at2 I 0 0
         + -at2 E 2 1 / at2 E 1 1 * (at2 E 1 0 / at2 E 0 0 - at2 I 1 0 / at2 I 0 0),
       at2 I 2 0 / at2 I 0 0 + -at2 E 2 1 / at2 E 1 1 * (at2 I 1 0 / at2 I 0 0),
       at2 E 2 1 / at2 E 1 1 - at2 I 2 1 / at2 I 1 1,
       at2 I 2 1 / at2 I 1 1] := by
  have h : (1.0 : ℚ) = 1 := by norm_num
  rw [← h]
  rfl

lemma construct_dU4fCombo (I E : List (List ℚ)) :
    (construct I E).m_dU4fCombo =
      [1 - at2 E 3 0 / at2 E 0 0
         + (-at2 E 3 1 / at2 E 1 1 * index (construct I E).m_dU2fCombo 0
            + -at2 E 3 2 / at2 E 2 2 * index (construct I E).m_dU3fCombo 0),
       at2 E 3 0 / at2 E 0 0 - at2 I 3 0 / at2 I 0 0
         + (-at2 E 3 1 / at2 E 1 1 * index (construct I E).m_dU2fCombo 1
            + -at2 E 3 2 / at2 E 2 2 * index (construct I E).m_dU3fCombo 1),
       at2 I 3 0 / at2 I 0 0
         + (-at2 E 3 1 / at2 E 1 1 * index (construct I E).m_dU2fCombo 2
            + -at2 E 3 2 / at2 E 2 2 * index (construct I E).m_dU3fCombo 2),
       at2 E 3 1 / at2 E 1 1 - at2 I 3 1 / at2 I 1 1
         + -at2 E 3 2 / at2 E 2 2 * index (construct I E).m_dU3fCombo 3,
       at2 I 3 1 / at2 I 1 1 + -at2 E 3 2 / at2 E 2 2 * index (construct I E).m_dU3fCombo 4,
       at2 E 3 2 / at2 E 2 2 - at2 I 3 2 / at2 I 2 2,
       at2 I 3 2 / at2 I 2 2] := by
  have h : (1.0 : ℚ) = 1 := by norm_num
  rw [← h]
  rfl

lemma index_cons_zero (a : ℚ) (l : List ℚ) : index (a :: l) 0 = a := rfl

lemma index_cons_succ (a : ℚ) (l : List ℚ) (n : Nat) : index (a :: l) (n + 1) = index l n := rfl

lemma comboSum_cons (i : Nat) (is : List Nat) (d : ℚ) (ds : List ℚ) (p : Nat → ℚ) :
    comboSum (i :: is) (d :: ds) p = d * p i + comboSum is ds p := by
  simp [comboSum]

lemma comboSum_nil (p : Nat → ℚ) : comboSum [] [] p = 0 := rfl

lemma weightOn_cons (i : Nat) (is : List Nat) (d : ℚ) (ds : List ℚ) (k : Nat) :
    weightOn (i :: is) (d :: ds) k = (if i = k then d else 0) + weightOn is ds k := by
  by_cases h : i = k <;> simp [weightOn, List.filter_cons, h]

lemma weightOn_nil (k : Nat) : weightOn [] [] k = 0 := rfl

lemma reconstruct_of_nonzero (I E : List (List ℚ))
    (hE0 : at2 E 0 0 ≠ 0) (hI0 : at2 I 0 0 ≠ 0) (hE1 : at2 E 1 1 ≠ 0)
    (hI1 : at2 I 1 1 ≠ 0) (hE2 : at2 E 2 2 ≠ 0) (hI2 : at2 I 2 2 ≠ 0)
    (u0 f1 f2 f3 g1 g2 g3 : ℚ) (b : Nat → ℚ)
    (h0 : b 0 = u0)
    (h1 : b 1 = b 0 + at2 E 0 0 * f1)
    (h2 : b 2 = b 1 + at2 I 0 0 * g1)
    (h3 : b 3 = comboSum (construct I E).m_iU2fCombo (construct I E).m_dU2fCombo b
      + at2 E 1 1 * f2)
    (h4 : b 4 = b 3 + at2 I 1 1 * g2)
    (h5 : b 5 = comboSum (construct I E).m_iU3fCombo (construct I E).m_dU3fCombo b
      + at2 E 2 2 * f3)
    (h6 : b 6 = b 5 + at2 I 2 2 * g3) :
    comboSum (construct I E).m_iU2fCombo (construct I E).m_dU2fCombo b
        = u0 + at2 E 1 0 * f1 + at2 I 1 0 * g1 ∧
    comboSum (construct I E).m_iU3fCombo (construct I E).m_dU3fCombo b
        = u0 + at2 E 2 0 * f1 + at2 E 2 1 * f2 + at2 I 2 0 * g1 + at2 I 2 1 * g2 ∧
    comboSum (construct I E).m_iU4fCombo (construct I E).m_dU4fCombo b
        = u0 + at2 E 3 0 * f1 + at2 E 3 1 * f2 + at2 E 3 2 * f3
            + at2 I 3 0 * g1 + at2 I 3 1 * g2 + at2 I 3 2 * g3 := by
  simp only [construct_iU2fCombo, construct_iU3fCombo, construct_iU4fCombo,
    construct_dU4fCombo, construct_dU2fCombo, construct_dU3fCombo, comboSum_cons,
    comboSum_nil, index_cons_zero, index_cons_succ] at h3 h5 ⊢
  simp only [neg_div] at h3 h5 ⊢
  have r10 : at2 E 1 0 / at2 E 0 0 * at2 E 0 0 = at2 E 1 0 := div_mul_cancel₀ _ hE0
  have r20 : at2 E 2 0 / at2 E 0 0 * at2 E 0 0 = at2 E 2 0 := div_mul_cancel₀ _ hE0
  have r30 : at2 E 3 0 / at2 E 0 0 * at2 E 0 0 = at2 E 3 0 := div_mul_cancel₀ _ hE0
  have r21 : at2 E 2 1 / at2 E 1 1 * at2 E 1 1 = at2 E 2 1 := div_mul_cancel₀ _ hE1
  have r31 : at2 E 3 1 / at2 E 1 1 * at2 E 1 1 = at2 E 3 1 := div_mul_cancel₀ _ hE1
  have r32 : at2 E 3 2 / at2 E 2 2 * at2 E 2 2 = at2 E 3 2 := div_mul_cancel₀ _ hE2
  have q10 : at2 I 1 0 / at2 I 0 0 * at2 I 0 0 = at2 I 1 0 := div_mul_cancel₀ _ hI0
  have q20 : at2 I 2 0 / at2 I 0 0 * at2 I 0 0 = at2 I 2 0 := div_mul_cancel₀ _ hI0
  have q30 : at2 I 3 0 / at2 I 0 0 * at2 I 0 0 = at2 I 3 0 := div_mul_cancel₀ _ hI0
  have q21 : at2 I 2 1 / at2 I 1 1 * at2 I 1 1 = at2 I 2 1 := div_mul_cancel₀ _ hI1
  have q31 : at2 I 3 1 / at2 I 1 1 * at2 I 1 1 = at2 I 3 1 := div_mul_cancel₀ _ hI1
  have q32 : at2 I 3 2 / at2 I 2 2 * at2 I 2 2 = at2 I 3 2 := div_mul_cancel₀ _ hI2
  generalize at2 E 1 0 / at2 E 0 0 = a10 at *
  generalize at2 E 2 0 / at2 E 0 0 = a20 at *
  generalize at2 E 3 0 / at2 E 0 0 = a30 at *
  generalize at2 E 2 1 / at2 E 1 1 = a21 at *
  generalize at2 E 3 1 / at2 E 1 1 = a31 at *
  generalize at2 E 3 2 / at2 E 2 2 = a32 at *
  generalize at2 I 1 0 / at2 I 0 0 = c10 at *
  generalize at2 I 2 0 / at2 I 0 0 = c20 at *
  generalize at2 I 3 0 / at2 I 0 0 = c30 at *
  generalize at2 I 2 1 / at2 I 1 1 = c21 at *
  generalize at2 I 3 1 / at2 I 1 1 = c31 at *
  generalize at2 I 3 2 / at2 I 2 2 = c32 at *
  generalize b 0 = x0 at *
  generalize b 1 = x1 at *
  generalize b 2 = x2 at *
  generalize b 3 = x3 at *
  generalize b 4 = x4 at *
  generalize b 5 = x5 at *
  generalize b 6 = x6 at *
  subst h0 h1 h2 h3 h4 h5 h6
  refine ⟨?_, ?_, ?_⟩
  · linear_combination f1 * r10 + g1 * q10
  · linear_combination f1 * r20 + g1 * q20 + f2 * r21 + g2 * q21
  · linear_combination f1 * r30 + g1 * q30 + f2 * r31 + g2 * q31 + f3 * r32 + g3 * q32

lemma weights_sum_one (I E : List (List ℚ)) :
    (construct I E).m_dU2fCombo.sum = 1 ∧ (construct I E).m_dU3fCombo.sum = 1 ∧
      (construct I E).m_dU4fCombo.sum = 1 := by
  simp only [construct_dU4fCombo, construct_dU2fCombo, construct_dU3fCombo,
    index_cons_zero, index_cons_succ, List.sum_cons, List.sum_nil]
  refine ⟨?_, ?_, ?_⟩ <;> ring

/-! ## The literals of the source -/

lemma dGamma_ne_zero : dGamma ≠ 0 := by
  unfold dGamma
  norm_num

lemma ExpCf_00 : at2 ExpCf 0 0 = dGamma := rfl
lemma ExpCf_11 : at2 ExpCf 1 1 = dA32 dGamma dA42 dA43 := rfl
lemma ExpCf_22 : at2 ExpCf 2 2 = dA43 := rfl
lemma ExpCf_33 : at2 ExpCf 3 3 = dGamma := rfl
lemma ImpCf_00 : at2 ImpCf 0 0 = dGamma := rfl
lemma ImpCf_11 : at2 ImpCf 1 1 = dGamma := rfl
lemma ImpCf_22 : at2 ImpCf 2 2 = dGamma := rfl
lemma ImpCf_33 : at2 ImpCf 3 3 = 0 := rfl

lemma ExpCf_00_ne_zero : at2 ExpCf 0 0 ≠ 0 := dGamma_ne_zero
lemma ImpCf_00_ne_zero : at2 ImpCf 0 0 ≠ 0 := dGamma_ne_zero
lemma ImpCf_11_ne_zero : at2 ImpCf 1 1 ≠ 0 := dGamma_ne_zero
lemma ImpCf_22_ne_zero : at2 ImpCf 2 2 ≠ 0 := dGamma_ne_zero

lemma ExpCf_11_ne_zero : at2 ExpCf 1 1 ≠ 0 := by
  rw [ExpCf_11]
  unfold dA32 dGamma dA42 dA43
  norm_num

lemma ExpCf_22_ne_zero : at2 ExpCf 2 2 ≠ 0 := by
  rw [ExpCf_22]
  unfold dA43
  norm_num

lemma imexBuffers_spec (I E : List (List ℚ)) (u0 f1 f2 f3 g1 g2 g3 : ℚ) :
    let b := imexBuffers (construct I E) I E u0 f1 f2 f3 g1 g2 g3
    b 0 = u0 ∧ b 1 = b 0 + at2 E 0 0 * f1 ∧ b 2 = b 1 + at2 I 0 0 * g1 ∧
    b 3 = comboSum (construct I E).m_iU2fCombo (construct I E).m_dU2fCombo b
      + at2 E 1 1 * f2 ∧
    b 4 = b 3 + at2 I 1 1 * g2 ∧
    b 5 = comboSum (construct I E).m_iU3fCombo (construct I E).m_dU3fCombo b
      + at2 E 2 2 * f3 ∧
    b 6 = b 5 + at2 I 2 2 * g3 := by
  simp [imexBuffers, Function.update, construct_iU2fCombo, construct_iU3fCombo,
    construct_dU2fCombo, construct_dU3fCombo, comboSum_cons, comboSum_nil]

/-! ## Claims about the constructor -/

/-- Claim C1: over exact arithmetic, the three final stage combinations rebuild
the IMEX stage inputs. If the buffers are `b0 = u0`, `b1 = b0 + E[0][0]*f1`,
`b2 = b1 + I[0][0]*g1`, `b3 = C2 + E[1][1]*f2`, `b4 = b3 + I[1][1]*g2`,
`b5 = C3 + E[2][2]*f3`, `b6 = b5 + I[2][2]*g3`, where `Cs` is the weighted sum
of the buffers given by the final stage-`s` combination, then `C2`, `C3` and
`C4` are `u0` plus the row-1, row-2 and row-3 tableau combinations of the `f`
and `g`. -/
theorem stage_combinations_reconstruct_stage_inputs
    (u0 f1 f2 f3 g1 g2 g3 : ℚ) (b : Nat → ℚ)
    (h0 : b 0 = u0)
    (h1 : b 1 = b 0 + at2 ExpCf 0 0 * f1)
    (h2 : b 2 = b 1 + at2 ImpCf 0 0 * g1)
    (h3 : b 3 = comboSum TimestepSchemeARS343b.new.m_iU2fCombo
        TimestepSchemeARS343b.new.m_dU2fCombo b + at2 ExpCf 1 1 * f2)
    (h4 : b 4 = b 3 + at2 ImpCf 1 1 * g2)
    (h5 : b 5 = comboSum TimestepSchemeARS343b.new.m_iU3fCombo
        TimestepSchemeARS343b.new.m_dU3fCombo b + at2 ExpCf 2 2 * f3)
    (h6 : b 6 = b 5 + at2 ImpCf 2 2 * g3) :
    comboSum TimestepSchemeARS343b.new.m_iU2fCombo TimestepSchemeARS343b.new.m_dU2fCombo b
        = u0 + at2 ExpCf 1 0 * f1 + at2 ImpCf 1 0 * g1 ∧
    comboSum TimestepSchemeARS343b.new.m_iU3fCombo TimestepSchemeARS343b.new.m_dU3fCombo b
        = u0 + at2 ExpCf 2 0 * f1 + at2 ExpCf 2 1 * f2
            + at2 ImpCf 2 0 * g1 + at2 ImpCf 2 1 * g2 ∧
    comboSum TimestepSchemeARS343b.new.m_iU4fCombo TimestepSchemeARS343b.new.m_dU4fCombo b
        = u0 + at2 ExpCf 3 0 * f1 + at2 ExpCf 3 1 * f2 + at2 ExpCf 3 2 * f3
            + at2 ImpCf 3 0 * g1 + at2 ImpCf 3 1 * g2 + at2 ImpCf 3 2 * g3 :=
  reconstruct_of_nonzero ImpCf ExpCf ExpCf_00_ne_zero ImpCf_00_ne_zero ExpCf_11_ne_zero
    ImpCf_11_ne_zero ExpCf_22_ne_zero ImpCf_22_ne_zero u0 f1 f2 f3 g1 g2 g3 b
    h0 h1 h2 h3 h4 h5 h6

/-- Witness for C1: the buffers of a step with `u0 = 1`, tendencies `2, 3, 4`
and corrections `5, 6, 7` satisfy the seven buffer equations, and there the
stage-4 combination is the row-3 tableau combination. -/
theorem stage_combinations_reconstruct_stage_inputs_witness :
    comboSum TimestepSchemeARS343b.new.m_iU4fCombo TimestepSchemeARS343b.new.m_dU4fCombo
        (imexBuffers TimestepSchemeARS343b.new ImpCf ExpCf 1 2 3 4 5 6 7)
      = 1 + at2 ExpCf 3 0 * 2 + at2 ExpCf 3 1 * 3 + at2 ExpCf 3 2 * 4
          + at2 ImpCf 3 0 * 5 + at2 ImpCf 3 1 * 6 + at2 ImpCf 3 2 * 7 :=
  (stage_combinations_reconstruct_stage_inputs 1 2 3 4 5 6 7
    (imexBuffers TimestepSchemeARS343b.new ImpCf ExpCf 1 2 3 4 5 6 7)
    (imexBuffers_spec ImpCf ExpCf 1 2 3 4 5 6 7).1
    (imexBuffers_spec ImpCf ExpCf 1 2 3 4 5 6 7).2.1
    (imexBuffers_spec ImpCf ExpCf 1 2 3 4 5 6 7).2.2.1
    (imexBuffers_spec ImpCf ExpCf 1 2 3 4 5 6 7).2.2.2.1
    (imexBuffers_spec ImpCf ExpCf 1 2 3 4 5 6 7).2.2.2.2.1
    (imexBuffers_spec ImpCf ExpCf 1 2 3 4 5 6 7).2.2.2.2.2.1
    (imexBuffers_spec ImpCf ExpCf 1 2 3 4 5 6 7).2.2.2.2.2.2).2.2

/-- Claim C2: for each stage `s` in `{2, 3, 4}` the final weights of the stage
combination built by the constructor sum to exactly 1 in exact rational
arithmetic. -/
theorem stage_weights_sum_to_one :
    TimestepSchemeARS343b.new.m_dU2fCombo.sum = 1 ∧
    TimestepSchemeARS343b.new.m_dU3fCombo.sum = 1 ∧
    TimestepSchemeARS343b.new.m_dU4fCombo.sum = 1 :=
  weights_sum_one ImpCf ExpCf

/-- Claim C8: after construction `m_dDiagExpCf[s] = dExpCf[s][s]` and
`m_dDiagImpCf[s] = dImpCf[s][s]` for every stage index `s` in `0..3`; the
explicit diagonal is `(gamma, dA32, dA43, gamma)` and the implicit diagonal is
`(gamma, gamma, gamma, 0)` with `gamma = 0.4358665215084590`, so the first
entries of both are `gamma`. -/
theorem diagonal_coefficients :
    (∀ s : Fin 4,
      index TimestepSchemeARS343b.new.m_dDiagExpCf s = at2 ExpCf s s ∧
      index TimestepSchemeARS343b.new.m_dDiagImpCf s = at2 ImpCf s s) ∧
    TimestepSchemeARS343b.new.m_dDiagExpCf
      = [dGamma, dA32 dGamma dA42 dA43, dA43, dGamma] ∧
    TimestepSchemeARS343b.new.m_dDiagImpCf = [dGamma, dGamma, dGamma, 0] ∧
    dGamma = 4358665215084590 / 10000000000000000 ∧
    index TimestepSchemeARS343b.new.m_dDiagExpCf 0 = dGamma ∧
    index TimestepSchemeARS343b.new.m_dDiagImpCf 0 = dGamma := by
  refine ⟨?_, rfl, rfl, ?_, rfl, rfl⟩
  · intro s
    fin_cases s <;> exact ⟨rfl, rfl⟩
  · unfold dGamma
    norm_num

/-- Claim C10: for each stage `s` in `{2, 3, 4}` the stage combination has
exactly `2*(s-1)+1` terms (3, 5 and 7), its index and weight arrays have the
same length, and its index array is `0, 1, ..., 2*(s-1)` in increasing order
without repetition. -/
theorem stage_combination_sizes :
    (TimestepSchemeARS343b.new.m_iU2fCombo = List.range (2 * (2 - 1) + 1) ∧
      TimestepSchemeARS343b.new.m_iU2fCombo.length = 3 ∧
      TimestepSchemeARS343b.new.m_dU2fCombo.length
        = TimestepSchemeARS343b.new.m_iU2fCombo.length) ∧
    (TimestepSchemeARS343b.new.m_iU3fCombo = List.range (2 * (3 - 1) + 1) ∧
      TimestepSchemeARS343b.new.m_iU3fCombo.length = 5 ∧
      TimestepSchemeARS343b.new.m_dU3fCombo.length
        = TimestepSchemeARS343b.new.m_iU3fCombo.length) ∧
    (TimestepSchemeARS343b.new.m_iU4fCombo = List.range (2 * (4 - 1) + 1) ∧
      TimestepSchemeARS343b.new.m_iU4fCombo.length = 7 ∧
      TimestepSchemeARS343b.new.m_dU4fCombo.length
        = TimestepSchemeARS343b.new.m_iU4fCombo.length) := by
  refine ⟨⟨?_, rfl, rfl⟩, ⟨?_, rfl, rfl⟩, ⟨?_, rfl, rfl⟩⟩ <;> decide

/-- Claim C9, refuted as stated: the final stage-3 combination does not put the
weight `1 - E[2][0]/E[0][0]` on slot 0. -/
theorem stage3_weight_on_slot0_not_direct :
    ¬ (weightOn TimestepSchemeARS343b.new.m_iU3fCombo
        TimestepSchemeARS343b.new.m_dU3fCombo 0
      = 1 - at2 ExpCf 2 0 / at2 ExpCf 0 0) := by
  have h : weightOn TimestepSchemeARS343b.new.m_iU3fCombo
        TimestepSchemeARS343b.new.m_dU3fCombo 0
      = 1 - at2 ExpCf 2 0 / at2 ExpCf 0 0
        + -at2 ExpCf 2 1 / at2 ExpCf 1 1 * (1 - at2 ExpCf 1 0 / at2 ExpCf 0 0) := by
    simp [TimestepSchemeARS343b.new, construct_iU3fCombo, construct_dU3fCombo,
      weightOn_cons, weightOn_nil]
  rw [h]
  have e21 : at2 ExpCf 2 1 = dA42 := rfl
  have e10 : at2 ExpCf 1 0 = dA31 dGamma dA42 dA43 := rfl
  have e20 : at2 ExpCf 2 0 = dA41 dA42 dA43 := rfl
  rw [e21, e10, e20, ExpCf_11, ExpCf_00]
  unfold dA31 dA32 dA41 dGamma dA42 dA43
  norm_num

/-- Claim C9, amended: with `E = dExpCf`, `I = dImpCf`, the final stage-2
combination has weight `1 - E[1][0]/E[0][0]` on slot 0,
`E[1][0]/E[0][0] - I[1][0]/I[0][0]` on slot 1 and `I[1][0]/I[0][0]` on slot 2.
The final stage-3 and stage-4 combinations have the stated weights on their two
newest slots (3, 4 and 5, 6); on every older slot `k` the weight is the stated
one plus the recombination term: for stage 3, `-E[2][1]/E[1][1]` times the
stage-2 weight on `k`; for stage 4, `-E[3][1]/E[1][1]` times the stage-2 weight
on `k` (for `k = 0, 1, 2`) plus `-E[3][2]/E[2][2]` times the final stage-3
weight on `k`. -/
theorem stage_combination_weights_recombined :
    (weightOn TimestepSchemeARS343b.new.m_iU2fCombo TimestepSchemeARS343b.new.m_dU2fCombo 0
        = 1 - at2 ExpCf 1 0 / at2 ExpCf 0 0 ∧
      weightOn TimestepSchemeARS343b.new.m_iU2fCombo TimestepSchemeARS343b.new.m_dU2fCombo 1
        = at2 ExpCf 1 0 / at2 ExpCf 0 0 - at2 ImpCf 1 0 / at2 ImpCf 0 0 ∧
      weightOn TimestepSchemeARS343b.new.m_iU2fCombo TimestepSchemeARS343b.new.m_dU2fCombo 2
        = at2 ImpCf 1 0 / at2 ImpCf 0 0) ∧
    (weightOn TimestepSchemeARS343b.new.m_iU3fCombo TimestepSchemeARS343b.new.m_dU3fCombo 0
        = 1 - at2 ExpCf 2 0 / at2 ExpCf 0 0
          + -at2 ExpCf 2 1 / at2 ExpCf 1 1
            * weightOn TimestepSchemeARS343b.new.m_iU2fCombo
                TimestepSchemeARS343b.new.m_dU2fCombo 0 ∧
      weightOn TimestepSchemeARS343b.new.m_iU3fCombo TimestepSchemeARS343b.new.m_dU3fCombo 1
        = at2 ExpCf 2 0 / at2 ExpCf 0 0 - at2 ImpCf 2 0 / at2 ImpCf 0 0
          + -at2 ExpCf 2 1 / at2 ExpCf 1 1
            * weightOn TimestepSchemeARS343b.new.m_iU2fCombo
                TimestepSchemeARS343b.new.m_dU2fCombo 1 ∧
      weightOn TimestepSchemeARS343b.new.m_iU3fCombo TimestepSchemeARS343b.new.m_dU3fCombo 2
        = at2 ImpCf 2 0 / at2 ImpCf 0 0
          + -at2 ExpCf 2 1 / at2 ExpCf 1 1
            * weightOn TimestepSchemeARS343b.new.m_iU2fCombo
                TimestepSchemeARS343b.new.m_dU2fCombo 2 ∧
      weightOn TimestepSchemeARS343b.new.m_iU3fCombo TimestepSchemeARS343b.new.m_dU3fCombo 3
        = at2 ExpCf 2 1 / at2 ExpCf 1 1 - at2 ImpCf 2 1 / at2 ImpCf 1 1 ∧
      weightOn TimestepSchemeARS343b.new.m_iU3fCombo TimestepSchemeARS343b.new.m_dU3fCombo 4
        = at2 ImpCf 2 1 / at2 ImpCf 1 1) ∧
    (weightOn TimestepSchemeARS343b.new.m_iU4fCombo TimestepSchemeARS343b.new.m_dU4fCombo 0
        = 1 - at2 ExpCf 3 0 / at2 ExpCf 0 0
          + (-at2 ExpCf 3 1 / at2 ExpCf 1 1
              * weightOn TimestepSchemeARS343b.new.m_iU2fCombo
                  TimestepSchemeARS343b.new.m_dU2fCombo 0
            + -at2 ExpCf 3 2 / at2 ExpCf 2 2
              * weightOn TimestepSchemeARS343b.new.m_iU3fCombo
                  TimestepSchemeARS343b.new.m_dU3fCombo 0) ∧
      weightOn TimestepSchemeARS343b.new.m_iU4fCombo TimestepSchemeARS343b.new.m_dU4fCombo 1
        = at2 ExpCf 3 0 / at2 ExpCf 0 0 - at2 ImpCf 3 0 / at2 ImpCf 0 0
          + (-at2 ExpCf 3 1 / at2 ExpCf 1 1
              * weightOn TimestepSchemeARS343b.new.m_iU2fCombo
                  TimestepSchemeARS343b.new.m_dU2fCombo 1
            + -at2 ExpCf 3 2 / at2 ExpCf 2 2
              * weightOn TimestepSchemeARS343b.new.m_iU3fCombo
                  TimestepSchemeARS343b.new.m_dU3fCombo 1) ∧
      weightOn TimestepSchemeARS343b.new.m_iU4fCombo TimestepSchemeARS343b.new.m_dU4fCombo 2
        = at2 ImpCf 3 0 / at2 ImpCf 0 0
          + (-at2 ExpCf 3 1 / at2 ExpCf 1 1
              * weightOn TimestepSchemeARS343b.new.m_iU2fCombo
                  TimestepSchemeARS343b.new.m_dU2fCombo 2
            + -at2 ExpCf 3 2 / at2 ExpCf 2 2
              * weightOn TimestepSchemeARS343b.new.m_iU3fCombo
                  TimestepSchemeARS343b.new.m_dU3fCombo 2) ∧
      weightOn TimestepSchemeARS343b.new.m_iU4fCombo TimestepSchemeARS343b.new.m_dU4fCombo 3
        = at2 ExpCf 3 1 / at2 ExpCf 1 1 - at2 ImpCf 3 1 / at2 ImpCf 1 1
          + -at2 ExpCf 3 2 / at2 ExpCf 2 2
            * weightOn TimestepSchemeARS343b.new.m_iU3fCombo
                TimestepSchemeARS343b.new.m_dU3fCombo 3 ∧
      weightOn TimestepSchemeARS343b.new.m_iU4fCombo TimestepSchemeARS343b.new.m_dU4fCombo 4
        = at2 ImpCf 3 1 / at2 ImpCf 1 1
          + -at2 ExpCf 3 2 / at2 ExpCf 2 2
            * weightOn TimestepSchemeARS343b.new.m_iU3fCombo
                TimestepSchemeARS343b.new.m_dU3fCombo 4 ∧
      weightOn TimestepSchemeARS343b.new.m_iU4fCombo TimestepSchemeARS343b.new.m_dU4fCombo 5
        = at2 ExpCf 3 2 / at2 ExpCf 2 2 - at2 ImpCf 3 2 / at2 ImpCf 2 2 ∧
      weightOn TimestepSchemeARS343b.new.m_iU4fCombo TimestepSchemeARS343b.new.m_dU4fCombo 6
        = at2 ImpCf 3 2 / at2 ImpCf 2 2) := by
  simp only [TimestepSchemeARS343b.new, construct_iU2fCombo, construct_iU3fCombo,
    construct_iU4fCombo, construct_dU4fCombo, construct_dU2fCombo, construct_dU3fCombo,
    weightOn_cons, weightOn_nil, index_cons_zero, index_cons_succ]
  norm_num

/-! ## `Step`: shared lemmas -/

lemma stepCalls_eq {Time : Type} (self : TimestepSchemeARS343b) (fFirstStep fLastStep : Bool)
    (time : Time) (dDeltaT : ℚ) :
    stepCalls self fFirstStep fLastStep time dDeltaT =
      [.StepExplicitCombine (copyInst self.m_iCopyInst 0) (copyInst self.m_dCopyInst 0)
          0 1 time (index self.m_dDiagExpCf 0 * dDeltaT),
       .PostProcessSubstage 1 DataType.DataType_State,
       .PostProcessSubstage 1 DataType.DataType_Tracers,
       .StepImplicitCombine (copyInst self.m_iCopyInst 1) (copyInst self.m_dCopyInst 1)
          1 2 time (index self.m_dDiagImpCf 0 * dDeltaT),
       .StepExplicitCombine self.m_iU2fCombo self.m_dU2fCombo
          2 3 time (index self.m_dDiagExpCf 1 * dDeltaT),
       .PostProcessSubstage 3 DataType.DataType_State,
       .PostProcessSubstage 3 DataType.DataType_Tracers,
       .StepImplicitCombine (copyInst self.m_iCopyInst 3) (copyInst self.m_dCopyInst 3)
          3 4 time (index self.m_dDiagImpCf 1 * dDeltaT),
       .StepExplicitCombine self.m_iU3fCombo self.m_dU3fCombo
          4 5 time (index self.m_dDiagExpCf 2 * dDeltaT),
       .PostProcessSubstage 5 DataType.DataType_State,
       .PostProcessSubstage 5 DataType.DataType_Tracers,
       .StepImplicitCombine (copyInst self.m_iCopyInst 5) (copyInst self.m_dCopyInst 5)
          5 6 time (index self.m_dDiagImpCf 2 * dDeltaT),
       .StepExplicitCombine self.m_iU4fCombo self.m_dU4fCombo
          6 0 time (index self.m_dDiagExpCf 3 * dDeltaT),
       .PostProcessSubstage 0 DataType.DataType_State,
       .PostProcessSubstage 0 DataType.DataType_Tracers,
       .StepAfterSubCycleCombine 0 1 time dDeltaT] := by
  simp [stepCalls, runStep, TimestepSchemeARS343b.Step, recording, receive]

/-- With collaborators that never fail, a run of `Step` feeds the calls of
`stepCalls` to the collaborators one after the other. -/
lemma runStep_eq_foldl {Pool Time : Type} (self : TimestepSchemeARS343b)
    (sem : Call Time → Pool → Pool) (fFirstStep fLastStep : Bool) (time : Time)
    (dDeltaT : ℚ) (w : World Pool Time) :
    runStep self sem fFirstStep fLastStep time dDeltaT w =
      (stepCalls self fFirstStep fLastStep time dDeltaT).foldl
        (fun w c => ⟨sem c w.pool, w.log ++ [c]⟩) w := by
  rw [stepCalls_eq]
  simp [runStep, TimestepSchemeARS343b.Step, recording, receive]

lemma runStep_log {Pool Time : Type} (self : TimestepSchemeARS343b)
    (sem : Call Time → Pool → Pool) (fFirstStep fLastStep : Bool) (time : Time)
    (dDeltaT : ℚ) (w : World Pool Time) :
    (runStep self sem fFirstStep fLastStep time dDeltaT w).log =
      w.log ++ stepCalls self fFirstStep fLastStep time dDeltaT := by
  rw [runStep_eq_foldl, stepCalls_eq]
  simp

/-! ## Claims about `Step` -/

/-- Claim C3: for every input, whatever the (non-failing) collaborators do, one
call of `Step` issues exactly 16 collaborator calls in this order: for each
stage an explicit combine, the post-processing of that call's target buffer
for `DataType_State` and then for `DataType_Tracers`, and, for stages 1 to 3
only, an implicit combine; then one `StepAfterSubCycleCombine`. The explicit
targets are 1, 3, 5 and 0. -/
theorem step_issues_sixteen_calls_in_order {Pool Time : Type}
    (self : TimestepSchemeARS343b) (sem : Call Time → Pool → Pool)
    (fFirstStep fLastStep : Bool) (time : Time) (dDeltaT : ℚ) (w : World Pool Time) :
    ∃ calls : List (Call Time),
      (runStep self sem fFirstStep fLastStep time dDeltaT w).log = w.log ++ calls ∧
      calls.length = 16 ∧
      calls.map Call.shape =
        stageShape 1 false ++ stageShape 3 false ++ stageShape 5 false
          ++ stageShape 0 true ++ [Shape.afterSubCycle] :=
  ⟨stepCalls self fFirstStep fLastStep time dDeltaT,
    runStep_log self sem fFirstStep fLastStep time dDeltaT w,
    by rw [stepCalls_eq]; rfl, by rw [stepCalls_eq]; rfl⟩

/-- Claim C4: for every step size `dt` and time `t`, the explicit combine of
stage `s` receives `m_dDiagExpCf[s-1] * dt`, the implicit combine of stage `s`
(`s = 1..3`) receives `m_dDiagImpCf[s-1] * dt`, the final
`StepAfterSubCycleCombine` receives the unscaled `dt`, and each of these calls
receives the time `t` given to `Step`. -/
theorem step_call_timing {Pool Time : Type}
    (self : TimestepSchemeARS343b) (sem : Call Time → Pool → Pool)
    (fFirstStep fLastStep : Bool) (time : Time) (dDeltaT : ℚ) (w : World Pool Time) :
    ∃ calls : List (Call Time),
      (runStep self sem fFirstStep fLastStep time dDeltaT w).log = w.log ++ calls ∧
      calls.filterMap Call.timing =
        [(Timed.explicitCombine, time, index self.m_dDiagExpCf 0 * dDeltaT),
         (Timed.implicitCombine, time, index self.m_dDiagImpCf 0 * dDeltaT),
         (Timed.explicitCombine, time, index self.m_dDiagExpCf 1 * dDeltaT),
         (Timed.implicitCombine, time, index self.m_dDiagImpCf 1 * dDeltaT),
         (Timed.explicitCombine, time, index self.m_dDiagExpCf 2 * dDeltaT),
         (Timed.implicitCombine, time, index self.m_dDiagImpCf 2 * dDeltaT),
         (Timed.explicitCombine, time, index self.m_dDiagExpCf 3 * dDeltaT),
         (Timed.afterSubCycle, time, dDeltaT)] :=
  ⟨stepCalls self fFirstStep fLastStep time dDeltaT,
    runStep_log self sem fFirstStep fLastStep time dDeltaT w,
    by rw [stepCalls_eq]; rfl⟩

lemma construct_iCopyInst (I E : List (List ℚ)) :
    (construct I E).m_iCopyInst = [[0], [1], [2], [3], [4], [5], [6]] := rfl

lemma construct_dCopyInst (I E : List (List ℚ)) :
    (construct I E).m_dCopyInst = [[1], [1], [1], [1], [1], [1], [1]] := by
  have h : (1.0 : ℚ) = 1 := by norm_num
  rw [← h]
  rfl

lemma NoopPhysics.eq_noopPhysics {Time : Type} {sem : Call Time → (Nat → ℚ) → (Nat → ℚ)}
    (h : NoopPhysics sem) : sem = noopPhysics := by
  funext c p
  cases c with
  | StepExplicitCombine i d a b t k => exact h.explicitCombine i d a b t k p
  | StepImplicitCombine i d a b t k => exact h.implicitCombine i d a b t k p
  | PostProcessSubstage b k => exact h.postProcess b k p
  | StepAfterSubCycleCombine a b t k => exact h.afterSubCycle a b t k p

lemma noop_step_slot0 {Time : Type} (I E : List (List ℚ)) (fFirstStep fLastStep : Bool)
    (time : Time) (dDeltaT : ℚ) (w : World (Nat → ℚ) Time) :
    (runStep (construct I E) noopPhysics fFirstStep fLastStep time dDeltaT w).pool 0
      = w.pool 0 := by
  obtain ⟨s2, s3, s4⟩ := weights_sum_one I E
  obtain ⟨a0, a1, a2, e2⟩ : ∃ a0 a1 a2, (construct I E).m_dU2fCombo = [a0, a1, a2] :=
    ⟨_, _, _, construct_dU2fCombo I E⟩
  obtain ⟨b0, b1, b2, b3, b4, e3⟩ :
      ∃ b0 b1 b2 b3 b4, (construct I E).m_dU3fCombo = [b0, b1, b2, b3, b4] :=
    ⟨_, _, _, _, _, construct_dU3fCombo I E⟩
  obtain ⟨c0, c1, c2, c3, c4, c5, c6, e4⟩ :
      ∃ c0 c1 c2 c3 c4 c5 c6, (construct I E).m_dU4fCombo = [c0, c1, c2, c3, c4, c5, c6] :=
    ⟨_, _, _, _, _, _, _, construct_dU4fCombo I E⟩
  rw [runStep_eq_foldl, stepCalls_eq]
  simp only [List.foldl_cons, List.foldl_nil, noopPhysics, construct_iCopyInst,
    construct_dCopyInst, copyInst, List.getD_cons_zero, List.getD_cons_succ,
    construct_iU2fCombo, construct_iU3fCombo, construct_iU4fCombo, e2, e3, e4,
    comboSum_cons, comboSum_nil, List.sum_cons, List.sum_nil] at s2 s3 s4 ⊢
  simp [Function.update]
  linear_combination w.pool 0 * s4
    + ((c3 + c4) * w.pool 0 + (c5 + c6) * (b3 + b4) * w.pool 0) * s2
    + (c5 + c6) * w.pool 0 * s3

lemma noopPhysics_isNoop {Time : Type} :
    NoopPhysics (noopPhysics : Call Time → (Nat → ℚ) → (Nat → ℚ)) :=
  ⟨fun _ _ _ _ _ _ _ => rfl, fun _ _ _ _ _ _ _ => rfl, fun _ _ _ => rfl,
    fun _ _ _ _ _ => rfl⟩

/-- Claim C6: under no-op physics (every combine call writes the weighted sum of
its combination into its target, post-processing leaves the buffers unchanged,
the after-subcycle call copies its source to its target), for every initial
buffer pool the value of slot 0 after `Step` equals its value before, in exact
arithmetic. -/
theorem step_noop_physics_preserves_slot_zero {Time : Type}
    (sem : Call Time → (Nat → ℚ) → (Nat → ℚ)) (hsem : NoopPhysics sem)
    (fFirstStep fLastStep : Bool) (time : Time) (dDeltaT : ℚ)
    (w : World (Nat → ℚ) Time) :
    (runStep TimestepSchemeARS343b.new sem fFirstStep fLastStep time dDeltaT w).pool 0
      = w.pool 0 := by
  rw [hsem.eq_noopPhysics]
  exact noop_step_slot0 ImpCf ExpCf fFirstStep fLastStep time dDeltaT w

/-- Witness for C6: `noopPhysics` is no-op physics, and a step of size 1 from
the pool whose slot `i` holds `i + 5` leaves 5 in slot 0. -/
theorem step_noop_physics_preserves_slot_zero_witness :
    NoopPhysics (noopPhysics : Call Nat → (Nat → ℚ) → (Nat → ℚ)) ∧
    (runStep TimestepSchemeARS343b.new noopPhysics true false (0 : Nat) 1
      ⟨fun i => (i : ℚ) + 5, []⟩).pool 0 = 5 :=
  ⟨noopPhysics_isNoop,
    (step_noop_physics_preserves_slot_zero noopPhysics noopPhysics_isNoop true false
      (0 : Nat) 1 ⟨fun i => (i : ℚ) + 5, []⟩).trans (by norm_num)⟩

lemma run_receiveFallible_bind {Pool Time ε : Type}
    (sem : Call Time → Pool → Except ε Unit × Pool) (c : Call Time)
    (k : Unit → ExceptT ε (StateM (World Pool Time)) Unit) (w : World Pool Time) :
    ((receiveFallible sem c >>= k).run).run w =
      match (sem c w.pool).1 with
      | .ok _ => ((k ()).run).run ⟨(sem c w.pool).2, w.log ++ [c]⟩
      | .error e => (.error e, ⟨(sem c w.pool).2, w.log ++ [c]⟩) := by
  simp only [receiveFallible, ExceptT.run_bind, ExceptT.run_mk, StateT.run_bind]
  cases h : (sem c w.pool).1 with
  | ok a => simp [StateT.run, h]
  | error e =>
    simp [StateT.run, h]
    rfl

lemma run_receiveFallible {Pool Time ε : Type}
    (sem : Call Time → Pool → Except ε Unit × Pool) (c : Call Time) (w : World Pool Time) :
    ((receiveFallible sem c).run).run w =
      ((sem c w.pool).1, ⟨(sem c w.pool).2, w.log ++ [c]⟩) := rfl

/-- Claim C7: with fallible collaborators of which every combine call writes only
its target buffer and post-processing acts in place, if the calls before the
implicit combine of stage `s + 1` (`s + 1 = 1, 2, 3`) succeed and that implicit
combine throws `e`, then `Step` fails with `e`, the calls issued are exactly
the first `4 * (s + 1)` calls of the step, the last of them being the failing
call, and slot 0 holds the value it held when `Step` was entered. -/
theorem step_implicit_failure_halts {V Time ε : Type} (self : TimestepSchemeARS343b)
    (sem : Call Time → (Nat → V) → Except ε Unit × (Nat → V)) (s : Fin 3) (e : ε)
    (fFirstStep fLastStep : Bool) (time : Time) (dDeltaT : ℚ) (w : World (Nat → V) Time)
    (hframe : ∀ c p i, c.mayWrite i = false → (sem c p).2 i = p i)
    (hok : ∀ c ∈ (stepCalls self fFirstStep fLastStep time dDeltaT).take (4 * s + 3),
      ∀ p, (sem c p).1 = .ok ())
    (hfail : ∀ p, (sem (implicitCall self (s + 1) time dDeltaT) p).1 = .error e) :
    (runStepFallible self sem fFirstStep fLastStep time dDeltaT w).1 = .error e ∧
    (runStepFallible self sem fFirstStep fLastStep time dDeltaT w).2.log
      = w.log ++ (stepCalls self fFirstStep fLastStep time dDeltaT).take (4 * (s + 1)) ∧
    ((stepCalls self fFirstStep fLastStep time dDeltaT).take (4 * (s + 1))).getLast?
      = some (implicitCall self (s + 1) time dDeltaT) ∧
    (runStepFallible self sem fFirstStep fLastStep time dDeltaT w).2.pool 0 = w.pool 0 := by
  have hp : ∀ c p, Call.mayWrite c 0 = false → (sem c p).2 0 = p 0 :=
    fun c p => hframe c p 0
  rw [stepCalls_eq] at hok ⊢
  fin_cases s
  · simp only [Fin.zero_eta, Fin.val_zero, Nat.mul_zero, Nat.zero_add, List.take_succ_cons,
      List.take_zero, List.mem_cons, forall_eq_or_imp, List.mem_nil_iff, implicitCall,
      Nat.reduceMul, Nat.reduceSub, Nat.reduceAdd] at hok hfail ⊢
    obtain ⟨k1, k2, k3, -⟩ := hok
    simp only [runStepFallible, TimestepSchemeARS343b.Step, fallible,
      run_receiveFallible_bind, run_receiveFallible, k1, k2, k3, hfail]
    refine ⟨trivial, by simp, by simp, ?_⟩
    rw [hp, hp, hp, hp] <;> rfl
  · simp only [Fin.mk_one, Fin.val_one, Nat.mul_one, List.take_succ_cons,
      List.take_zero, List.mem_cons, forall_eq_or_imp, List.mem_nil_iff, implicitCall,
      Nat.reduceMul, Nat.reduceSub, Nat.reduceAdd] at hok hfail ⊢
    obtain ⟨k1, k2, k3, k4, k5, k6, k7, -⟩ := hok
    simp only [runStepFallible, TimestepSchemeARS343b.Step, fallible,
      run_receiveFallible_bind, run_receiveFallible, k1, k2, k3, k4, k5, k6, k7, hfail]
    refine ⟨trivial, by simp, by simp, ?_⟩
    rw [hp, hp, hp, hp, hp, hp, hp, hp] <;> rfl
  · simp only [Fin.reduceFinMk, Fin.val_two, List.take_succ_cons,
      List.take_zero, List.mem_cons, forall_eq_or_imp, List.mem_nil_iff, implicitCall,
      Nat.reduceMul, Nat.reduceSub, Nat.reduceAdd] at hok hfail ⊢
    obtain ⟨k1, k2, k3, k4, k5, k6, k7, k8, k9, k10, k11, -⟩ := hok
    simp only [runStepFallible, TimestepSchemeARS343b.Step, fallible,
      run_receiveFallible_bind, run_receiveFallible, k1, k2, k3, k4, k5, k6, k7, k8, k9,
      k10, k11, hfail]
    refine ⟨trivial, by simp, by simp, ?_⟩
    rw [hp, hp, hp, hp, hp, hp, hp, hp, hp, hp, hp, hp] <;> rfl

lemma throwingOn_frame {Time ε : Type} [DecidableEq Time] (bad : Call Time) (e : ε)
    (c : Call Time) (p : Nat → ℚ) (i : Nat) (h : c.mayWrite i = false) :
    (throwingOn bad e c p).2 i = p i := by
  unfold throwingOn
  split
  · rfl
  · cases c <;> simp_all [noopPhysics, Call.mayWrite, Function.update]

lemma throwingOn_self {Time ε : Type} [DecidableEq Time] (bad : Call Time) (e : ε)
    (p : Nat → ℚ) : (throwingOn bad e bad p).1 = .error e := by
  simp [throwingOn]

lemma throwingOn_ok {Time ε : Type} [DecidableEq Time] (bad : Call Time) (e : ε)
    (c : Call Time) (h : c ≠ bad) (p : Nat → ℚ) : (throwingOn bad e c p).1 = .ok () := by
  simp [throwingOn, h]

/-- Witness for C7: a solver stub that throws on the implicit combine of stage 2
and is no-op physics elsewhere; a step of size 1 from the pool whose slot `i`
holds `i + 5` fails with that exception and leaves 5 in slot 0. -/
theorem step_implicit_failure_halts_witness :
    (runStepFallible TimestepSchemeARS343b.new
        (throwingOn (implicitCall TimestepSchemeARS343b.new 2 (0 : Nat) 1) "SolverFailure")
        true false (0 : Nat) 1 ⟨fun i => (i : ℚ) + 5, []⟩).1 = .error "SolverFailure" ∧
    (runStepFallible TimestepSchemeARS343b.new
        (throwingOn (implicitCall TimestepSchemeARS343b.new 2 (0 : Nat) 1) "SolverFailure")
        true false (0 : Nat) 1 ⟨fun i => (i : ℚ) + 5, []⟩).2.pool 0 = 5 :=
  have h := step_implicit_failure_halts TimestepSchemeARS343b.new
    (throwingOn (implicitCall TimestepSchemeARS343b.new 2 (0 : Nat) 1) "SolverFailure")
    (1 : Fin 3) "SolverFailure" true false (0 : Nat) 1 ⟨fun i => (i : ℚ) + 5, []⟩
    (throwingOn_frame _ _)
    (by
      intro c hc p
      apply throwingOn_ok
      rw [stepCalls_eq] at hc
      simp only [Fin.val_one, Nat.reduceMul, Nat.reduceAdd, List.take_succ_cons,
        List.take_zero, List.mem_cons, List.mem_nil_iff, or_false] at hc
      rcases hc with rfl | rfl | rfl | rfl | rfl | rfl | rfl <;> simp [implicitCall])
    (throwingOn_self _ _)
  ⟨h.1, h.2.2.2.trans (by norm_num)⟩

/-! ## Further claims about the constructor -/

lemma assignCombos_dU3fCombo (I E : List (List ℚ)) :
    (assignCombos I E).m_dU3fCombo =
      [1 - at2 E 2 0 / at2 E 0 0,
       at2 E 2 0 / at2 E 0 0 - at2 I 2 0 / at2 I 0 0,
       at2 I 2 0 / at2 I 0 0,
       at2 E 2 1 / at2 E 1 1 - at2 I 2 1 / at2 I 1 1,
       at2 I 2 1 / at2 I 1 1] := by
  have h : (1.0 : ℚ) = 1 := by norm_num
  rw [← h]
  rfl

lemma assignCombos_dU4fCombo (I E : List (List ℚ)) :
    (assignCombos I E).m_dU4fCombo =
      [1 - at2 E 3 0 / at2 E 0 0,
       at2 E 3 0 / at2 E 0 0 - at2 I 3 0 / at2 I 0 0,
       at2 I 3 0 / at2 I 0 0,
       at2 E 3 1 / at2 E 1 1 - at2 I 3 1 / at2 I 1 1,
       at2 I 3 1 / at2 I 1 1,
       at2 E 3 2 / at2 E 2 2 - at2 I 3 2 / at2 I 2 2,
       at2 I 3 2 / at2 I 2 2] := by
  have h : (1.0 : ℚ) = 1 := by norm_num
  rw [← h]
  rfl

/-- Claim C12: `Step` does not depend on its flags. For any two choices of
`(fFirstStep, fLastStep)` it issues the same calls with the same arguments and
leaves the same world, with collaborators that never fail and with
collaborators that may throw. -/
theorem step_ignores_flags {Pool Time ε : Type} (self : TimestepSchemeARS343b)
    (sem : Call Time → Pool → Pool) (semF : Call Time → Pool → Except ε Unit × Pool)
    (fFirstStep fLastStep fFirstStep2 fLastStep2 : Bool) (time : Time) (dDeltaT : ℚ)
    (w : World Pool Time) :
    stepCalls self fFirstStep fLastStep time dDeltaT
      = stepCalls self fFirstStep2 fLastStep2 time dDeltaT ∧
    runStep self sem fFirstStep fLastStep time dDeltaT w
      = runStep self sem fFirstStep2 fLastStep2 time dDeltaT w ∧
    runStepFallible self semF fFirstStep fLastStep time dDeltaT w
      = runStepFallible self semF fFirstStep2 fLastStep2 time dDeltaT w :=
  ⟨rfl, rfl, rfl⟩

/-- Claim C17: the tableau is row-consistent in exact arithmetic for every value
of `dGamma`, `dA42` and `dA43`: the row sums of `dExpCf` and of `dImpCf` are both
`gamma`, `(1 + gamma)/2`, `1`, `1`. -/
theorem tableau_row_sums (g a42 a43 : ℚ) :
    (dExpCf g a42 a43).map List.sum = [g, (1 + g) / 2, 1, 1] ∧
    (dImpCf g).map List.sum = [g, (1 + g) / 2, 1, 1] ∧
    (dExpCf g a42 a43).map List.sum = (dImpCf g).map List.sum := by
  have hE : (dExpCf g a42 a43).map List.sum = [g, (1 + g) / 2, 1, 1] := by
    simp only [dExpCf, dA31, dA32, dA41, dB1, dB2, List.map_cons, List.map_nil,
      List.sum_cons, List.sum_nil]
    norm_num
    constructor <;> ring
  have hI : (dImpCf g).map List.sum = [g, (1 + g) / 2, 1, 1] := by
    simp only [dImpCf, dB1, dB2, List.map_cons, List.map_nil, List.sum_cons, List.sum_nil]
    norm_num
    constructor <;> ring
  exact ⟨hE, hI, hE.trans hI.symm⟩

/-- Claim C18: no division in the constructor divides by zero. With the literals
of the source in exact arithmetic the six divisors `dExpCf[0][0]`, `dImpCf[0][0]`,
`dExpCf[1][1]` (which is `dA32`), `dImpCf[1][1]`, `dExpCf[2][2]` (which is
`dA43`) and `dImpCf[2][2]` are nonzero. -/
theorem constructor_divisors_nonzero :
    at2 ExpCf 0 0 ≠ 0 ∧ at2 ImpCf 0 0 ≠ 0 ∧
    (at2 ExpCf 1 1 = dA32 dGamma dA42 dA43 ∧ at2 ExpCf 1 1 ≠ 0) ∧ at2 ImpCf 1 1 ≠ 0 ∧
    (at2 ExpCf 2 2 = dA43 ∧ at2 ExpCf 2 2 ≠ 0) ∧ at2 ImpCf 2 2 ≠ 0 :=
  ⟨ExpCf_00_ne_zero, ImpCf_00_ne_zero, ⟨rfl, ExpCf_11_ne_zero⟩, ImpCf_11_ne_zero,
    ⟨rfl, ExpCf_22_ne_zero⟩, ImpCf_22_ne_zero⟩

lemma ExpCf_31_ne_zero : at2 ExpCf 3 1 ≠ 0 := by
  show dB1 dGamma ≠ 0
  unfold dB1 dGamma
  norm_num

lemma ExpCf_32_ne_zero : at2 ExpCf 3 2 ≠ 0 := by
  show dB2 dGamma ≠ 0
  unfold dB2 dGamma
  norm_num

lemma ExpCf_21_ne_zero : at2 ExpCf 2 1 ≠ 0 := by
  show dA42 ≠ 0
  unfold dA42
  norm_num

lemma new_dU2fCombo_zero_ne_zero : 1 - at2 ExpCf 1 0 / at2 ExpCf 0 0 ≠ 0 := by
  have e10 : at2 ExpCf 1 0 = dA31 dGamma dA42 dA43 := rfl
  rw [e10, ExpCf_00]
  unfold dA31 dGamma dA42 dA43
  norm_num

/-- Claim C14, refuted as stated for stage 4: the final stage-4 combination is
not the direct stage-4 combination plus `-dExpCf[3][2]/dExpCf[2][2]` times the
final stage-3 combination. -/
theorem stage4_not_single_substitution :
    ¬ (TimestepSchemeARS343b.new.m_dU4fCombo =
        addScaled (assignCombos ImpCf ExpCf).m_dU4fCombo
          (-at2 ExpCf 3 2 / at2 ExpCf 2 2) TimestepSchemeARS343b.new.m_dU3fCombo) := by
  intro h
  have h0 := congrArg (fun l => index l 0) h
  simp only [TimestepSchemeARS343b.new, construct_dU4fCombo, construct_dU3fCombo,
    construct_dU2fCombo, assignCombos_dU4fCombo, addScaled, padTo, index_cons_zero,
    List.length_cons, List.length_nil, List.replicate, List.cons_append,
    List.zipWith_cons_cons] at h0
  have h1 : -at2 ExpCf 3 1 / at2 ExpCf 1 1 * (1 - at2 ExpCf 1 0 / at2 ExpCf 0 0) = 0 := by
    linear_combination h0
  rcases mul_eq_zero.mp h1 with h2 | h2
  · rcases div_eq_zero_iff.mp h2 with h3 | h3
    · exact ExpCf_31_ne_zero (neg_eq_zero.mp h3)
    · exact ExpCf_11_ne_zero h3
  · exact new_dU2fCombo_zero_ne_zero h2

/-- Claim C14, amended: the final stage-3 combination equals the direct stage-3
combination plus the stage-2 combination scaled by `-dExpCf[2][1]/dExpCf[1][1]`,
slot by slot, the stage-2 combination being padded with zeros on the two newest
slots. The final stage-4 combination equals the direct stage-4 combination plus
the stage-2 combination scaled by `-dExpCf[3][1]/dExpCf[1][1]` plus the fully
reduced stage-3 combination scaled by `-dExpCf[3][2]/dExpCf[2][2]`, slot by slot
with zero padding; the stage-3 weights used there are the already recombined
ones, and the direct ones would give a different result. -/
theorem recombination_by_substitution :
    TimestepSchemeARS343b.new.m_dU3fCombo =
      addScaled (assignCombos ImpCf ExpCf).m_dU3fCombo
        (-at2 ExpCf 2 1 / at2 ExpCf 1 1) TimestepSchemeARS343b.new.m_dU2fCombo ∧
    TimestepSchemeARS343b.new.m_dU4fCombo =
      addScaled
        (addScaled (assignCombos ImpCf ExpCf).m_dU4fCombo
          (-at2 ExpCf 3 1 / at2 ExpCf 1 1) TimestepSchemeARS343b.new.m_dU2fCombo)
        (-at2 ExpCf 3 2 / at2 ExpCf 2 2) TimestepSchemeARS343b.new.m_dU3fCombo ∧
    TimestepSchemeARS343b.new.m_dU4fCombo ≠
      addScaled
        (addScaled (assignCombos ImpCf ExpCf).m_dU4fCombo
          (-at2 ExpCf 3 1 / at2 ExpCf 1 1) TimestepSchemeARS343b.new.m_dU2fCombo)
        (-at2 ExpCf 3 2 / at2 ExpCf 2 2) (assignCombos ImpCf ExpCf).m_dU3fCombo := by
  refine ⟨?_, ?_, ?_⟩
  · simp only [TimestepSchemeARS343b.new, construct_dU3fCombo, construct_dU2fCombo,
      assignCombos_dU3fCombo, addScaled, padTo, List.length_cons, List.length_nil,
      List.replicate, List.cons_append, List.nil_append, List.zipWith_cons_cons,
      List.zipWith_nil_right, Nat.reduceAdd, Nat.reduceSub]
    norm_num
  · simp only [TimestepSchemeARS343b.new, construct_dU4fCombo, construct_dU3fCombo,
      construct_dU2fCombo, assignCombos_dU4fCombo, addScaled, padTo, List.length_cons,
      List.length_nil, List.replicate, List.cons_append, List.nil_append,
      List.zipWith_cons_cons, List.zipWith_nil_right, List.length_zipWith,
      index_cons_zero, index_cons_succ, Nat.reduceAdd, Nat.reduceSub, min_self]
    norm_num
    refine ⟨?_, ?_, ?_⟩ <;> ring
  · intro h
    have h0 := congrArg (fun l => index l 0) h
    simp only [TimestepSchemeARS343b.new, construct_dU4fCombo, construct_dU3fCombo,
      construct_dU2fCombo, assignCombos_dU4fCombo, assignCombos_dU3fCombo, addScaled, padTo,
      index_cons_zero, List.length_cons, List.length_nil, List.replicate, List.cons_append,
      List.zipWith_cons_cons] at h0
    have h1 : -at2 ExpCf 3 2 / at2 ExpCf 2 2
        * (-at2 ExpCf 2 1 / at2 ExpCf 1 1 * (1 - at2 ExpCf 1 0 / at2 ExpCf 0 0)) = 0 := by
      linear_combination h0
    rcases mul_eq_zero.mp h1 with h2 | h2
    · rcases div_eq_zero_iff.mp h2 with h3 | h3
      · exact ExpCf_32_ne_zero (neg_eq_zero.mp h3)
      · exact ExpCf_22_ne_zero h3
    · rcases mul_eq_zero.mp h2 with h4 | h4
      · rcases div_eq_zero_iff.mp h4 with h5 | h5
        · exact ExpCf_21_ne_zero (neg_eq_zero.mp h5)
        · exact ExpCf_11_ne_zero h5
      · exact new_dU2fCombo_zero_ne_zero h4

/-! ## Further claims about `Step` -/

lemma new_stepCalls {Time : Type} (fFirstStep fLastStep : Bool) (time : Time) (dDeltaT : ℚ) :
    stepCalls TimestepSchemeARS343b.new fFirstStep fLastStep time dDeltaT =
      [.StepExplicitCombine [0] [1] 0 1 time
          (index TimestepSchemeARS343b.new.m_dDiagExpCf 0 * dDeltaT),
       .PostProcessSubstage 1 DataType.DataType_State,
       .PostProcessSubstage 1 DataType.DataType_Tracers,
       .StepImplicitCombine [1] [1] 1 2 time
          (index TimestepSchemeARS343b.new.m_dDiagImpCf 0 * dDeltaT),
       .StepExplicitCombine [0, 1, 2] TimestepSchemeARS343b.new.m_dU2fCombo 2 3 time
          (index TimestepSchemeARS343b.new.m_dDiagExpCf 1 * dDeltaT),
       .PostProcessSubstage 3 DataType.DataType_State,
       .PostProcessSubstage 3 DataType.DataType_Tracers,
       .StepImplicitCombine [3] [1] 3 4 time
          (index TimestepSchemeARS343b.new.m_dDiagImpCf 1 * dDeltaT),
       .StepExplicitCombine [0, 1, 2, 3, 4] TimestepSchemeARS343b.new.m_dU3fCombo 4 5 time
          (index TimestepSchemeARS343b.new.m_dDiagExpCf 2 * dDeltaT),
       .PostProcessSubstage 5 DataType.DataType_State,
       .PostProcessSubstage 5 DataType.DataType_Tracers,
       .StepImplicitCombine [5] [1] 5 6 time
          (index TimestepSchemeARS343b.new.m_dDiagImpCf 2 * dDeltaT),
       .StepExplicitCombine [0, 1, 2, 3, 4, 5, 6] TimestepSchemeARS343b.new.m_dU4fCombo
          6 0 time (index TimestepSchemeARS343b.new.m_dDiagExpCf 3 * dDeltaT),
       .PostProcessSubstage 0 DataType.DataType_State,
       .PostProcessSubstage 0 DataType.DataType_Tracers,
       .StepAfterSubCycleCombine 0 1 time dDeltaT] := by
  have hi : TimestepSchemeARS343b.new.m_iCopyInst = [[0], [1], [2], [3], [4], [5], [6]] :=
    construct_iCopyInst ImpCf ExpCf
  have hd : TimestepSchemeARS343b.new.m_dCopyInst = [[1], [1], [1], [1], [1], [1], [1]] :=
    construct_dCopyInst ImpCf ExpCf
  have h2 : TimestepSchemeARS343b.new.m_iU2fCombo = [0, 1, 2] := rfl
  have h3 : TimestepSchemeARS343b.new.m_iU3fCombo = [0, 1, 2, 3, 4] := rfl
  have h4 : TimestepSchemeARS343b.new.m_iU4fCombo = [0, 1, 2, 3, 4, 5, 6] := rfl
  rw [stepCalls_eq, hi, hd, h2, h3, h4]
  rfl

/-- Claim C15: every trivial combination used by `Step` is a single-term copy
with weight 1. The constructor builds, for every `s` in `0..6`, the copy
combination with index array `[s]` and weight array `[1]`; the stage-1 explicit
call uses the copy of slot 0; and in each stage `s = 1, 2, 3` the explicit call
writes slot `2s-1` and the implicit call uses the copy of that slot and writes
slot `2s`. -/
theorem copy_combinations_in_step {Time : Type} (fFirstStep fLastStep : Bool)
    (time : Time) (dDeltaT : ℚ) :
    (∀ s : Fin 7,
      copyInst TimestepSchemeARS343b.new.m_iCopyInst s = [s.val] ∧
      copyInst TimestepSchemeARS343b.new.m_dCopyInst s = [1]) ∧
    (stepCalls TimestepSchemeARS343b.new fFirstStep fLastStep time dDeltaT).head?
      = some (.StepExplicitCombine [0] [1] 0 1 time
          (index TimestepSchemeARS343b.new.m_dDiagExpCf 0 * dDeltaT)) ∧
    (∀ s : Fin 3,
      ((stepCalls TimestepSchemeARS343b.new fFirstStep fLastStep time dDeltaT).get?
          (4 * s.val)).bind Call.targetIndex = some (2 * s.val + 1) ∧
      (stepCalls TimestepSchemeARS343b.new fFirstStep fLastStep time dDeltaT).get?
          (4 * s.val + 3)
        = some (.StepImplicitCombine [2 * s.val + 1] [1] (2 * s.val + 1) (2 * s.val + 2) time
            (index TimestepSchemeARS343b.new.m_dDiagImpCf s.val * dDeltaT))) ∧
    (stepCalls TimestepSchemeARS343b.new fFirstStep fLastStep time dDeltaT).filter
        Call.isImplicit
      = [.StepImplicitCombine [1] [1] 1 2 time
            (index TimestepSchemeARS343b.new.m_dDiagImpCf 0 * dDeltaT),
         .StepImplicitCombine [3] [1] 3 4 time
            (index TimestepSchemeARS343b.new.m_dDiagImpCf 1 * dDeltaT),
         .StepImplicitCombine [5] [1] 5 6 time
            (index TimestepSchemeARS343b.new.m_dDiagImpCf 2 * dDeltaT)] := by
  have hi : TimestepSchemeARS343b.new.m_iCopyInst = [[0], [1], [2], [3], [4], [5], [6]] :=
    construct_iCopyInst ImpCf ExpCf
  have hd : TimestepSchemeARS343b.new.m_dCopyInst = [[1], [1], [1], [1], [1], [1], [1]] :=
    construct_dCopyInst ImpCf ExpCf
  rw [new_stepCalls]
  refine ⟨?_, rfl, ?_, rfl⟩
  · intro s
    rw [hi, hd]
    fin_cases s <;> exact ⟨rfl, rfl⟩
  · intro s
    fin_cases s <;> exact ⟨rfl, rfl⟩

/-- Claim C11: causal ordering. For every explicit or implicit combine call in
the sequence issued by `Step`, every buffer index listed in its combination,
and its source index, is either slot 0 or the target index of a combine call
issued earlier in the same `Step`. -/
theorem step_causal_ordering {Time : Type} (fFirstStep fLastStep : Bool) (time : Time)
    (dDeltaT : ℚ) (n : Nat) (c : Call Time) (i : Nat)
    (hc : (stepCalls TimestepSchemeARS343b.new fFirstStep fLastStep time dDeltaT).get? n
      = some c)
    (hi : i ∈ c.reads) :
    i = 0 ∨
      ∃ c2 ∈ (stepCalls TimestepSchemeARS343b.new fFirstStep fLastStep time dDeltaT).take n,
        Call.combineTarget c2 = some i := by
  rw [new_stepCalls] at hc ⊢
  have hn : n < 16 := by
    have := List.get?_eq_some.mp hc
    obtain ⟨h, -⟩ := this
    simpa using h
  interval_cases n <;> simp only [List.get?, Option.some.injEq] at hc <;> subst hc <;>
    simp [Call.reads, Call.combineTarget] at hi ⊢ <;> omega

/-- Witness for C11: the stage-2 explicit combine (call number 4) reads slot 2,
which is the target of a combine call among the four calls before it. -/
theorem step_causal_ordering_witness :
    (2 : Nat) = 0 ∨
      ∃ c2 ∈ (stepCalls TimestepSchemeARS343b.new true false (0 : Nat) 1).take 4,
        Call.combineTarget c2 = some 2 :=
  step_causal_ordering true false (0 : Nat) 1 4
    (.StepExplicitCombine [0, 1, 2] TimestepSchemeARS343b.new.m_dU2fCombo 2 3 0
      (index TimestepSchemeARS343b.new.m_dDiagExpCf 1 * 1)) 2
    (by rw [new_stepCalls]; rfl) (by simp [Call.reads])

lemma foldl_frame {V Time : Type} (sem : Call Time → (Nat → V) → (Nat → V)) (i : Nat)
    (hframe : ∀ c p, Call.writes c i = false → sem c p i = p i) :
    ∀ (calls : List (Call Time)) (w : World (Nat → V) Time),
      (∀ c ∈ calls, Call.writes c i = false) →
      (calls.foldl (fun w c => ⟨sem c w.pool, w.log ++ [c]⟩) w).pool i = w.pool i := by
  intro calls
  induction calls with
  | nil => intro w _; rfl
  | cons c cs ih =>
    intro w h
    rw [List.foldl_cons, ih _ (fun c2 h2 => h c2 (List.mem_cons_of_mem _ h2))]
    exact hframe c w.pool (h c (List.mem_cons_self _ _))

/-- Claim C16: `Step` uses exactly `2S-1 = 7` buffer slots. The seven combine
calls before the final pass write to the pairwise distinct targets
1, 2, 3, 4, 5, 6, 0 in that order; every index `Step` reads or writes lies in
`0..6`, and each of these seven slots is used; when every call writes only the
buffer its contract names, slots outside `0..6` are left unchanged; and slot 0
is not written by any of the twelve calls before the stage-4 explicit
sub-step. -/
theorem step_uses_seven_slots {V Time : Type}
    (sem : Call Time → (Nat → V) → (Nat → V))
    (hframe : ∀ c p i, Call.writes c i = false → sem c p i = p i)
    (fFirstStep fLastStep : Bool) (time : Time) (dDeltaT : ℚ) (w : World (Nat → V) Time) :
    ((stepCalls TimestepSchemeARS343b.new fFirstStep fLastStep time dDeltaT).take 15).filterMap
        Call.combineTarget = [1, 2, 3, 4, 5, 6, 0] ∧
    [1, 2, 3, 4, 5, 6, 0].Nodup ∧
    ((stepCalls TimestepSchemeARS343b.new fFirstStep fLastStep time dDeltaT).flatMap
        Call.indices).all (fun i => decide (i ≤ 6)) = true ∧
    (∀ i : Fin 7, i.val ∈
      (stepCalls TimestepSchemeARS343b.new fFirstStep fLastStep time dDeltaT).flatMap
        Call.indices) ∧
    (∀ i : Nat, 6 < i →
      (runStep TimestepSchemeARS343b.new sem fFirstStep fLastStep time dDeltaT w).pool i
        = w.pool i) ∧
    ((stepCalls TimestepSchemeARS343b.new fFirstStep fLastStep time dDeltaT).take 12).all
        (fun c => !Call.writes c 0) = true := by
  refine ⟨?_, by decide, ?_, ?_, ?_, ?_⟩
  · rw [new_stepCalls]
    rfl
  · rw [new_stepCalls]
    rfl
  · intro i
    rw [new_stepCalls]
    fin_cases i <;> simp [Call.indices]
  · intro i hi
    rw [runStep_eq_foldl]
    apply foldl_frame sem i (fun c p => hframe c p i)
    intro c hc
    rw [new_stepCalls] at hc
    simp only [List.mem_cons, List.mem_nil_iff, or_false] at hc
    rcases hc with rfl | rfl | rfl | rfl | rfl | rfl | rfl | rfl | rfl | rfl | rfl | rfl |
      rfl | rfl | rfl | rfl <;> simp [Call.writes] <;> omega
  · rw [new_stepCalls]
    rfl

lemma noopPhysics_frame {Time : Type} (c : Call Time) (p : Nat → ℚ) (i : Nat)
    (h : Call.writes c i = false) : noopPhysics c p i = p i := by
  cases c <;> simp_all [noopPhysics, Call.writes, Function.update]

/-- Witness for C16: no-op physics writes only the buffer each contract names,
and a step of size 1 from the pool whose slot `i` holds `i + 5` leaves 12 in
slot 7. -/
theorem step_uses_seven_slots_witness :
    (∀ (c : Call Nat) (p : Nat → ℚ) (i : Nat),
      Call.writes c i = false → noopPhysics c p i = p i) ∧
    (runStep TimestepSchemeARS343b.new noopPhysics true false (0 : Nat) 1
      ⟨fun i => (i : ℚ) + 5, []⟩).pool 7 = 12 :=
  ⟨noopPhysics_frame,
    ((step_uses_seven_slots noopPhysics noopPhysics_frame true false (0 : Nat) 1
      ⟨fun i => (i : ℚ) + 5, []⟩).2.2.2.2.1 7 (by decide)).trans (by norm_num)⟩

/-! ## `ParseVariableList`: shared lemmas -/

lemma hasAdjacentDelimiters_cons_delim (x : Char) (r : List Char) (hx : isDelimiter x = true) :
    hasAdjacentDelimiters (x :: r) = (startsWithDelimiter r || hasAdjacentDelimiters r) := by
  cases r <;> simp [hasAdjacentDelimiters, startsWithDelimiter, hx]

lemma hasAdjacentDelimiters_cons_char (x : Char) (r : List Char) (hx : isDelimiter x = false) :
    hasAdjacentDelimiters (x :: r) = hasAdjacentDelimiters r := by
  cases r <;> simp [hasAdjacentDelimiters, hx]

lemma scanOk_nil (acc : List Char) : scanOk acc [] = true := by
  simp [scanOk, startsWithDelimiter, hasAdjacentDelimiters]

lemma scanOk_delim_nil (x : Char) (r : List Char) (hx : isDelimiter x = true) :
    scanOk [] (x :: r) = false := by
  simp [scanOk, startsWithDelimiter, hx]

lemma scanOk_delim (acc : List Char) (x : Char) (r : List Char) (hx : isDelimiter x = true)
    (hacc : acc ≠ []) : scanOk acc (x :: r) = scanOk [] r := by
  have h : acc.isEmpty = false := by cases acc <;> simp_all
  simp [scanOk, h, hasAdjacentDelimiters_cons_delim x r hx]

lemma scanOk_char (acc : List Char) (x : Char) (r : List Char) (hx : isDelimiter x = false) :
    scanOk acc (x :: r) = scanOk (acc ++ [x]) r := by
  simp [scanOk, startsWithDelimiter, hx, hasAdjacentDelimiters_cons_char x r hx]

lemma fieldsAfter_nil (acc : List Char) :
    fieldsAfter acc [] = if acc = [] then [] else [acc] := by
  cases acc <;> simp [fieldsAfter, List.splitOnP_nil, List.modifyHead]

lemma fieldsAfter_nil_left (rest : List Char) : fieldsAfter [] rest = fields rest := by
  have h : ∀ l : List (List Char), l.modifyHead (fun f => [] ++ f) = l := by
    intro l
    cases l <;> simp [List.modifyHead]
  simp only [fieldsAfter, fields, h]

lemma fieldsAfter_delim (acc : List Char) (x : Char) (r : List Char)
    (hx : isDelimiter x = true) (hacc : acc ≠ []) :
    fieldsAfter acc (x :: r) = acc :: fieldsAfter [] r := by
  have h : acc.isEmpty = false := by cases acc <;> simp_all
  rw [fieldsAfter_nil_left]
  simp [fieldsAfter, fields, List.splitOnP_cons, hx, List.modifyHead, h]

lemma fieldsAfter_char (acc : List Char) (x : Char) (r : List Char)
    (hx : isDelimiter x = false) :
    fieldsAfter acc (x :: r) = fieldsAfter (acc ++ [x]) r := by
  simp [fieldsAfter, List.splitOnP_cons, hx, List.modifyHead_modifyHead, Function.comp_def]

lemma charAt_append (pre : List Char) (x : Char) (r : List Char) :
    charAt (pre ++ x :: r) pre.length = x := by
  rw [charAt, List.getD_append_right _ _ _ _ (Nat.le_refl _), Nat.sub_self]
  rfl

lemma substr_append (pre rest acc : List Char) (b : Nat) (hb : b + acc.length = pre.length)
    (hacc : acc = pre.drop b) :
    substr (pre ++ rest) b (pre.length - b) = acc := by
  have h1 : b ≤ pre.length := by omega
  have h2 : pre.length - b = acc.length := by omega
  rw [substr, List.drop_append_of_le_length h1, ← hacc, h2, List.take_left]

lemma body_char (pre : List Char) (x : Char) (r : List Char) (st : ParseVariableListState)
    (hcur : st.iVarCurrent = pre.length) (hx : isDelimiter x = false) :
    ParseVariableListBody (pre ++ x :: r) st
      = some { st with iVarCurrent := st.iVarCurrent + 1 } := by
  have h1 : ¬ (st.iVarCurrent ≥ (pre ++ x :: r).length) := by
    simp [hcur]
  have h2 : (charAt (pre ++ x :: r) st.iVarCurrent == comma
      || charAt (pre ++ x :: r) st.iVarCurrent == blank) = false := by
    rw [hcur, charAt_append]
    exact hx
  have h3 : decide (st.iVarCurrent ≥ (pre ++ x :: r).length) = false := decide_eq_false h1
  unfold ParseVariableListBody
  rw [Bool.or_assoc, h2, h3]
  simp only [Bool.or_false, Bool.or_true, Bool.false_eq_true, if_false, if_true, if_neg h1]

lemma body_delim (pre : List Char) (x : Char) (r : List Char) (st : ParseVariableListState)
    (hcur : st.iVarCurrent = pre.length) (hx : isDelimiter x = true) :
    ParseVariableListBody (pre ++ x :: r) st =
      if st.iVarCurrent = st.iVarBegin then some st
      else some
        { iVarBegin := st.iVarCurrent + 1
          iVarCurrent := st.iVarCurrent + 1
          vecVariableStrings := st.vecVariableStrings ++
            [substr (pre ++ x :: r) st.iVarBegin (st.iVarCurrent - st.iVarBegin)] } := by
  have h1 : ¬ (st.iVarCurrent ≥ (pre ++ x :: r).length) := by
    simp [hcur]
  have h2 : (charAt (pre ++ x :: r) st.iVarCurrent == comma
      || charAt (pre ++ x :: r) st.iVarCurrent == blank) = true := by
    rw [hcur, charAt_append]
    exact hx
  have h3 : decide (st.iVarCurrent ≥ (pre ++ x :: r).length) = false := decide_eq_false h1
  unfold ParseVariableListBody
  rw [Bool.or_assoc, h2, h3]
  simp only [Bool.or_false, Bool.or_true, Bool.false_eq_true, if_false, if_true, if_neg h1]

lemma body_end (str : List Char) (st : ParseVariableListState)
    (hcur : str.length ≤ st.iVarCurrent) :
    ParseVariableListBody str st =
      if st.iVarCurrent = st.iVarBegin then none
      else some
        { iVarBegin := st.iVarCurrent + 1
          iVarCurrent := st.iVarCurrent + 1
          vecVariableStrings := st.vecVariableStrings ++
            [substr str st.iVarBegin (st.iVarCurrent - st.iVarBegin)] } := by
  unfold ParseVariableListBody
  simp [hcur]

lemma loop_succ (str : List Char) (fuel : Nat) (st : ParseVariableListState) :
    ParseVariableListLoop str (fuel + 1) st =
      match ParseVariableListBody str st with
      | none => .returned st.vecVariableStrings
      | some st2 => ParseVariableListLoop str fuel st2 := rfl

/-- The loop of `ParseVariableList` from a position inside a field: `pre` has
been read, `rest` is still to be read, and `acc` is the part of the current
field read so far. Either the scan meets no empty field and the loop returns
the fields after at most `rest.length + 2` passes, or it reaches a state that a
pass leaves unchanged. -/
lemma loop_from_field (str : List Char) :
    ∀ (rest pre acc : List Char) (st : ParseVariableListState),
      str = pre ++ rest → st.iVarCurrent = pre.length →
      st.iVarBegin + acc.length = st.iVarCurrent → acc = pre.drop st.iVarBegin →
      (scanOk acc rest = true →
        ∀ fuel, ParseVariableListLoop str (rest.length + 2 + fuel) st
          = .returned (st.vecVariableStrings ++ fieldsAfter acc rest)) ∧
      (scanOk acc rest = false →
        ∃ n st2, ParseVariableListLoop str n st = .running st2 ∧
          ParseVariableListBody str st2 = some st2) := by
  intro rest
  induction rest with
  | nil =>
    intro pre acc st hs hcur hb hacc
    have hlen : str.length ≤ st.iVarCurrent := by
      rw [hs, hcur]
      simp
    refine ⟨fun _ fuel => ?_, fun h => ?_⟩
    · have e : ([] : List Char).length + 2 + fuel = (fuel + 1) + 1 := by
        simp
        omega
      by_cases h0 : acc = []
      · have hbc : st.iVarCurrent = st.iVarBegin := by
          rw [h0] at hb
          simpa using hb.symm
        rw [e, loop_succ, body_end str st hlen, if_pos hbc, fieldsAfter_nil, if_pos h0]
        simp
      · have hpos : 0 < acc.length := List.length_pos.mpr h0
        have hbc : st.iVarCurrent ≠ st.iVarBegin := by omega
        have hsub : substr str st.iVarBegin (st.iVarCurrent - st.iVarBegin) = acc := by
          rw [hs, hcur]
          exact substr_append pre [] acc st.iVarBegin (by omega) hacc
        rw [e, loop_succ, body_end str st hlen, if_neg hbc]
        simp only []
        rw [loop_succ, body_end str _ (Nat.le_succ_of_le hlen), if_pos rfl, fieldsAfter_nil,
          if_neg h0, hsub]
    · rw [scanOk_nil] at h
      cases h
  | cons x r ih =>
    intro pre acc st hs hcur hb hacc
    have hs2 : str = (pre ++ [x]) ++ r := by
      rw [hs]
      simp
    have e : ∀ fuel, (x :: r).length + 2 + fuel = (r.length + 2 + fuel) + 1 := by
      intro fuel
      simp
      omega
    by_cases hx : isDelimiter x = true
    · by_cases h0 : acc = []
      · have hbc : st.iVarCurrent = st.iVarBegin := by
          rw [h0] at hb
          simpa using hb.symm
        refine ⟨fun h => ?_, fun _ => ⟨0, st, rfl, ?_⟩⟩
        · rw [h0, scanOk_delim_nil x r hx] at h
          cases h
        · rw [hs, body_delim pre x r st hcur hx, if_pos hbc]
      · have hpos : 0 < acc.length := List.length_pos.mpr h0
        have hbc : st.iVarCurrent ≠ st.iVarBegin := by omega
        have hsub : substr str st.iVarBegin (st.iVarCurrent - st.iVarBegin) = acc := by
          rw [hs, hcur]
          exact substr_append pre (x :: r) acc st.iVarBegin (by omega) hacc
        have hbody : ParseVariableListBody str st = some
            { iVarBegin := st.iVarCurrent + 1
              iVarCurrent := st.iVarCurrent + 1
              vecVariableStrings := st.vecVariableStrings ++ [acc] } := by
          rw [← hsub]
          conv_lhs => rw [hs]
          rw [body_delim pre x r st hcur hx, if_neg hbc, ← hs]
        obtain ⟨ihok, ihbad⟩ := ih (pre ++ [x]) []
          { iVarBegin := st.iVarCurrent + 1
            iVarCurrent := st.iVarCurrent + 1
            vecVariableStrings := st.vecVariableStrings ++ [acc] }
          hs2 (by simp [hcur]) (by simp) (by simp [hcur])
        rw [scanOk_delim acc x r hx h0, fieldsAfter_delim acc x r hx h0]
        refine ⟨fun h fuel => ?_, fun h => ?_⟩
        · rw [e, loop_succ, hbody]
          simp only []
          rw [ihok h fuel]
          simp
        · obtain ⟨n, st2, h1, h2⟩ := ihbad h
          refine ⟨n + 1, st2, ?_, h2⟩
          rw [loop_succ, hbody]
          exact h1
    · have hx2 : isDelimiter x = false := by simpa using hx
      have hbody : ParseVariableListBody str st
          = some { st with iVarCurrent := st.iVarCurrent + 1 } := by
        conv_lhs => rw [hs]
        rw [body_char pre x r st hcur hx2]
      have hle : st.iVarBegin ≤ pre.length := by omega
      have hacc2 : acc ++ [x] = (pre ++ [x]).drop st.iVarBegin := by
        rw [List.drop_append_of_le_length hle, ← hacc]
      obtain ⟨ihok, ihbad⟩ := ih (pre ++ [x]) (acc ++ [x])
        { st with iVarCurrent := st.iVarCurrent + 1 }
        hs2 (by simp [hcur]) (by simp; omega) hacc2
      rw [scanOk_char acc x r hx2, fieldsAfter_char acc x r hx2]
      refine ⟨fun h fuel => ?_, fun h => ?_⟩
      · rw [e, loop_succ, hbody]
        exact ihok h fuel
      · obtain ⟨n, st2, h1, h2⟩ := ihbad h
        refine ⟨n + 1, st2, ?_, h2⟩
        rw [loop_succ, hbody]
        exact h1

lemma loop_add (str : List Char) :
    ∀ (n m : Nat) (st : ParseVariableListState),
      ParseVariableListLoop str (n + m) st =
        match ParseVariableListLoop str n st with
        | .returned v => .returned v
        | .running st2 => ParseVariableListLoop str m st2 := by
  intro n
  induction n with
  | zero =>
    intro m st
    rw [Nat.zero_add]
    rfl
  | succ n ih =>
    intro m st
    rw [Nat.add_right_comm, loop_succ, loop_succ]
    cases ParseVariableListBody str st with
    | none => rfl
    | some st2 => exact ih m st2

lemma loop_stuck (str : List Char) (st : ParseVariableListState)
    (h : ParseVariableListBody str st = some st) :
    ∀ m, ParseVariableListLoop str m st = .running st := by
  intro m
  induction m with
  | zero => rfl
  | succ m ih => rw [loop_succ, h]; exact ih

lemma loop_never_returns (str : List Char) (st st2 : ParseVariableListState) (n : Nat)
    (h1 : ParseVariableListLoop str n st = .running st2)
    (h2 : ParseVariableListBody str st2 = some st2) :
    ∀ m, ∃ st3, ParseVariableListLoop str m st = .running st3 := by
  intro m
  rcases le_total m n with hmn | hnm
  · obtain ⟨k, rfl⟩ := Nat.exists_eq_add_of_le hmn
    rw [loop_add] at h1
    cases h : ParseVariableListLoop str m st with
    | returned v =>
      rw [h] at h1
      cases h1
    | running st3 => exact ⟨st3, rfl⟩
  · obtain ⟨k, rfl⟩ := Nat.exists_eq_add_of_le hnm
    rw [loop_add, h1]
    exact ⟨st2, loop_stuck str st2 h2 k⟩

lemma scanOk_nil_left (str : List Char) :
    scanOk [] str = true ↔ startsWithDelimiter str = false ∧ hasAdjacentDelimiters str = false := by
  simp [scanOk]

lemma parse_of_scanOk (str : List Char) (vec : List (List Char)) (h : scanOk [] str = true)
    (fuel : Nat) :
    ParseVariableList (str.length + 2 + fuel) str vec = some (vec ++ fields str) := by
  have h1 := (loop_from_field str str [] []
    { iVarBegin := 0, iVarCurrent := 0, vecVariableStrings := vec } rfl rfl rfl rfl).1 h fuel
  rw [ParseVariableList, h1, fieldsAfter_nil_left]

lemma parse_of_not_scanOk (str : List Char) (vec : List (List Char))
    (h : scanOk [] str = false) :
    (∀ fuel, ParseVariableList fuel str vec = none) ∧
    ∃ n st, ParseVariableListLoop str n
        { iVarBegin := 0, iVarCurrent := 0, vecVariableStrings := vec } = .running st ∧
      ParseVariableListBody str st = some st := by
  obtain ⟨n, st2, h1, h2⟩ := (loop_from_field str str [] []
    { iVarBegin := 0, iVarCurrent := 0, vecVariableStrings := vec } rfl rfl rfl rfl).2 h
  refine ⟨fun fuel => ?_, n, st2, h1, h2⟩
  obtain ⟨st3, h3⟩ := loop_never_returns str _ st2 n h1 h2 fuel
  rw [ParseVariableList, h3]

lemma parse_some_iff (str : List Char) (vec : List (List Char)) :
    (∃ fuel out, ParseVariableList fuel str vec = some out) ↔ scanOk [] str = true := by
  constructor
  · rintro ⟨fuel, out, h⟩
    by_contra hne
    have hf : scanOk [] str = false := by simpa using hne
    rw [(parse_of_not_scanOk str vec hf).1 fuel] at h
    cases h
  · intro h
    exact ⟨str.length + 2 + 0, _, parse_of_scanOk str vec h 0⟩

lemma parse_some_eq (str : List Char) (vec : List (List Char)) (fuel : Nat)
    (out : List (List Char)) (h : ParseVariableList fuel str vec = some out) :
    out = vec ++ fields str := by
  have hok : scanOk [] str = true := (parse_some_iff str vec).mp ⟨fuel, out, h⟩
  have h1 := parse_of_scanOk str vec hok fuel
  have h2 : ParseVariableListLoop str fuel
      { iVarBegin := 0, iVarCurrent := 0, vecVariableStrings := vec } = .returned out := by
    unfold ParseVariableList at h
    split at h
    · next v hv =>
      rw [hv]
      exact congrArg _ (Option.some.inj h)
    · cases h
  have h3 : ParseVariableList (fuel + (str.length + 2)) str vec = some out := by
    rw [ParseVariableList, loop_add, h2]
  rw [Nat.add_comm] at h3
  rw [h1] at h3
  exact (Option.some.inj h3).symm

lemma splitOnP_flatten (p : Char → Bool) (l : List Char) :
    (l.splitOnP p).flatten = l.filter fun c => !p c := by
  induction l with
  | nil => simp [List.splitOnP_nil]
  | cons x xs ih =>
    rw [List.splitOnP_cons]
    by_cases hx : p x = true
    · simp [hx, ih]
    · have hx2 : p x = false := by simpa using hx
      rw [if_neg hx]
      cases h : xs.splitOnP p with
      | nil => exact absurd h (List.splitOnP_ne_nil p xs)
      | cons a as =>
        rw [h] at ih
        simp only [List.modifyHead, List.flatten_cons] at ih ⊢
        simp [hx2, ← ih]

lemma splitOnP_mem (p : Char → Bool) (l : List Char) :
    ∀ f ∈ l.splitOnP p, ∀ c ∈ f, p c = false := by
  induction l with
  | nil => simp [List.splitOnP_nil]
  | cons x xs ih =>
    rw [List.splitOnP_cons]
    by_cases hx : p x = true
    · rw [if_pos hx]
      intro f hf
      rcases List.mem_cons.mp hf with rfl | hf
      · simp
      · exact ih f hf
    · have hx2 : p x = false := by simpa using hx
      rw [if_neg hx]
      cases h : xs.splitOnP p with
      | nil => exact absurd h (List.splitOnP_ne_nil p xs)
      | cons a as =>
        rw [h] at ih
        intro f hf
        simp only [List.modifyHead, List.mem_cons] at hf
        rcases hf with rfl | hf
        · intro c hc
          rcases List.mem_cons.mp hc with rfl | hc
          · exact hx2
          · exact ih a (List.mem_cons_self _ _) c hc
        · exact ih f (List.mem_cons_of_mem _ hf)

lemma flatten_filter_nonempty (l : List (List Char)) :
    (l.filter fun f => !f.isEmpty).flatten = l.flatten := by
  induction l with
  | nil => rfl
  | cons a as ih =>
    cases a with
    | nil => simpa using ih
    | cons c cs => simp [List.filter_cons, ih]

lemma fields_flatten (str : List Char) :
    (fields str).flatten = str.filter fun c => !isDelimiter c := by
  rw [fields, flatten_filter_nonempty, splitOnP_flatten]

lemma fields_mem (str : List Char) :
    ∀ f ∈ fields str, f ≠ [] ∧ ∀ c ∈ f, isDelimiter c = false := by
  intro f hf
  rw [fields, List.mem_filter] at hf
  refine ⟨?_, splitOnP_mem isDelimiter str f hf.1⟩
  intro h0
  rw [h0] at hf
  simp at hf

lemma startsWithDelimiter_iff (str : List Char) :
    startsWithDelimiter str = true ↔ 0 < str.length ∧ isDelimiter (charAt str 0) = true := by
  cases str with
  | nil => simp [startsWithDelimiter]
  | cons a l => simp [startsWithDelimiter, charAt]

lemma hasAdjacentDelimiters_iff (str : List Char) :
    hasAdjacentDelimiters str = true ↔
      ∃ i, i + 1 < str.length ∧ isDelimiter (charAt str i) = true ∧
        isDelimiter (charAt str (i + 1)) = true := by
  induction str with
  | nil => simp [hasAdjacentDelimiters]
  | cons a l ih =>
    cases l with
    | nil => simp [hasAdjacentDelimiters]
    | cons b rest =>
      have hstep : ∀ i, charAt (a :: b :: rest) (i + 1) = charAt (b :: rest) i := fun _ => rfl
      simp only [hasAdjacentDelimiters, Bool.or_eq_true, Bool.and_eq_true, ih]
      constructor
      · rintro (⟨ha, hb⟩ | ⟨i, hi, h1, h2⟩)
        · exact ⟨0, by simp, ha, hb⟩
        · exact ⟨i + 1, by simpa using hi, by rw [hstep]; exact h1, by rw [hstep]; exact h2⟩
      · rintro ⟨i, hi, h1, h2⟩
        cases i with
        | zero => exact Or.inl ⟨h1, h2⟩
        | succ j =>
          rw [hstep] at h1 h2
          exact Or.inr ⟨j, by simpa using hi, h1, h2⟩

/-! ## Claims about `ParseVariableList` -/

/-- Claim C19: `ParseVariableList` terminates on an input string if and only if
the string has no delimiter (`,` or space) at index 0 and no delimiter
immediately following another delimiter. On every other input the loop reaches
a state that a pass through the body leaves unchanged, so it repeats forever
without advancing its position; `"a, b"` and `",a"` are such inputs. -/
theorem parseVariableList_terminates_iff (strVariables : List Char)
    (vecVariableStrings : List (List Char)) :
    ((∃ fuel out, ParseVariableList fuel strVariables vecVariableStrings = some out) ↔
      (startsWithDelimiter strVariables = false ∧
        hasAdjacentDelimiters strVariables = false)) ∧
    ((startsWithDelimiter strVariables = false ∧
        hasAdjacentDelimiters strVariables = false) ∨
      ((∀ fuel, ParseVariableList fuel strVariables vecVariableStrings = none) ∧
        ∃ n st, ParseVariableListLoop strVariables n
            { iVarBegin := 0, iVarCurrent := 0, vecVariableStrings := vecVariableStrings }
              = .running st ∧
          ParseVariableListBody strVariables st = some st)) ∧
    (startsWithDelimiter strVariables = true ↔
      0 < strVariables.length ∧ isDelimiter (charAt strVariables 0) = true) ∧
    (hasAdjacentDelimiters strVariables = true ↔
      ∃ i, i + 1 < strVariables.length ∧ isDelimiter (charAt strVariables i) = true ∧
        isDelimiter (charAt strVariables (i + 1)) = true) ∧
    (∀ fuel, ParseVariableList fuel "a, b".toList vecVariableStrings = none) ∧
    (∀ fuel, ParseVariableList fuel ",a".toList vecVariableStrings = none) := by
  refine ⟨?_, ?_, startsWithDelimiter_iff strVariables,
    hasAdjacentDelimiters_iff strVariables, ?_, ?_⟩
  · rw [parse_some_iff, scanOk_nil_left]
  · cases h : scanOk [] strVariables with
    | true => exact Or.inl ((scanOk_nil_left strVariables).mp h)
    | false => exact Or.inr (parse_of_not_scanOk strVariables vecVariableStrings h)
  · exact (parse_of_not_scanOk "a, b".toList vecVariableStrings (by decide)).1
  · exact (parse_of_not_scanOk ",a".toList vecVariableStrings (by decide)).1

/-- Claim C20: whenever `ParseVariableList` terminates, the vector it leaves is
the vector it was given followed, in left-to-right order, by exactly the maximal
non-empty substrings of the input that contain neither `,` nor space; that
result is reached within `length + 2` passes. The concatenation of the appended
names is the input with its delimiters removed, and no appended name is empty
or contains a delimiter. -/
theorem parseVariableList_appends_fields (strVariables : List Char)
    (vecVariableStrings : List (List Char)) (fuel : Nat) (out : List (List Char))
    (h : ParseVariableList fuel strVariables vecVariableStrings = some out) :
    out = vecVariableStrings ++ fields strVariables ∧
    ParseVariableList (strVariables.length + 2) strVariables vecVariableStrings
      = some (vecVariableStrings ++ fields strVariables) ∧
    (fields strVariables).flatten = strVariables.filter (fun c => !isDelimiter c) ∧
    (∀ f ∈ fields strVariables, f ≠ [] ∧ ∀ c ∈ f, isDelimiter c = false) :=
  ⟨parse_some_eq strVariables vecVariableStrings fuel out h,
    parse_of_scanOk strVariables vecVariableStrings
      ((parse_some_iff strVariables vecVariableStrings).mp ⟨fuel, out, h⟩) 0,
    fields_flatten strVariables, fields_mem strVariables⟩

/-- Witness for C20: on `"T,U V"` with the vector `["Z"]`, seven passes end the
loop with `["Z", "T", "U", "V"]`, which is `["Z"]` followed by the fields of the
input. -/
theorem parseVariableList_appends_fields_witness :
    ParseVariableList 7 "T,U V".toList ["Z".toList]
      = some ["Z".toList, "T".toList, "U".toList, "V".toList] ∧
    ["Z".toList, "T".toList, "U".toList, "V".toList]
      = ["Z".toList] ++ fields "T,U V".toList :=
  ⟨rfl,
    (parseVariableList_appends_fields "T,U V".toList ["Z".toList] 7
      ["Z".toList, "T".toList, "U".toList, "V".toList] rfl).1⟩

/-! ## Range mode of `ParsePressureLevels`: shared lemmas -/

lemma repopulateLoop_succ (b s e : ℚ) (fuel i : Nat) (vec : List ℚ) :
    repopulateLoop b s e (fuel + 1) i vec =
      if s > 0 ∧ b + (i : ℚ) * s > e then some vec
      else if s < 0 ∧ b + (i : ℚ) * s < e then some vec
      else repopulateLoop b s e fuel (i + 1) (vec ++ [b + (i : ℚ) * s]) := rfl

/-- The loop leaves at pass `i` exactly when `i` exceeds `(end - begin) / step`. -/
lemma break_iff (b s e : ℚ) (hs : s ≠ 0) (i : Nat) :
    ((s > 0 ∧ b + (i : ℚ) * s > e) ∨ (s < 0 ∧ b + (i : ℚ) * s < e)) ↔
      (e - b) / s < (i : ℚ) := by
  rcases lt_or_gt_of_ne hs with hneg | hpos
  · rw [div_lt_iff_of_neg hneg]
    constructor
    · rintro (⟨h, _⟩ | ⟨_, h⟩)
      · exact absurd h (not_lt.mpr hneg.le)
      · linarith
    · intro h
      exact Or.inr ⟨hneg, by linarith⟩
  · rw [div_lt_iff₀ hpos]
    constructor
    · rintro (⟨_, h⟩ | ⟨h, _⟩)
      · linarith
      · exact absurd h (not_lt.mpr hpos.le)
    · intro h
      exact Or.inl ⟨hpos, by linarith⟩

lemma repopulateLoop_break (b s e : ℚ) (hs : s ≠ 0) (fuel i : Nat) (vec : List ℚ)
    (h : (e - b) / s < (i : ℚ)) : repopulateLoop b s e (fuel + 1) i vec = some vec := by
  rw [repopulateLoop_succ]
  rcases (break_iff b s e hs i).mpr h with h1 | h2
  · rw [if_pos h1]
  · by_cases h1 : s > 0 ∧ b + (i : ℚ) * s > e
    · rw [if_pos h1]
    · rw [if_neg h1, if_pos h2]

lemma repopulateLoop_continue (b s e : ℚ) (hs : s ≠ 0) (fuel i : Nat) (vec : List ℚ)
    (h : (i : ℚ) ≤ (e - b) / s) :
    repopulateLoop b s e (fuel + 1) i vec
      = repopulateLoop b s e fuel (i + 1) (vec ++ [b + (i : ℚ) * s]) := by
  have hn : ¬ ((s > 0 ∧ b + (i : ℚ) * s > e) ∨ (s < 0 ∧ b + (i : ℚ) * s < e)) := by
    rw [break_iff b s e hs i]
    exact not_lt.mpr h
  rw [repopulateLoop_succ, if_neg (fun h1 => hn (Or.inl h1)), if_neg (fun h2 => hn (Or.inr h2))]

lemma repopulateLoop_run (b s e : ℚ) (hs : s ≠ 0) (h0 : 0 ≤ (e - b) / s) :
    ∀ (m i : Nat) (vec : List ℚ) (fuel : Nat), i + m = ⌊(e - b) / s⌋₊ + 1 →
      repopulateLoop b s e (m + 1 + fuel) i vec =
        some (vec ++ (List.range' i m).map fun j : Nat => b + (j : ℚ) * s) := by
  intro m
  induction m with
  | zero =>
    intro i vec fuel hi
    have hlt : (e - b) / s < (i : ℚ) := by
      have := Nat.lt_floor_add_one ((e - b) / s)
      rw [Nat.add_zero] at hi
      rw [hi]
      push_cast
      exact this
    rw [show 0 + 1 + fuel = fuel + 1 by omega, repopulateLoop_break b s e hs fuel i vec hlt]
    simp
  | succ m ih =>
    intro i vec fuel hi
    have hle : (i : ℚ) ≤ (e - b) / s := by
      have h1 : i ≤ ⌊(e - b) / s⌋₊ := by omega
      exact (Nat.le_floor_iff h0).mp h1
    rw [show m + 1 + 1 + fuel = (m + 1 + fuel) + 1 by omega,
      repopulateLoop_continue b s e hs _ i vec hle, ih (i + 1) _ fuel (by omega)]
    simp [List.range'_succ]

lemma repopulateLoop_mono (b s e : ℚ) :
    ∀ (fuel i : Nat) (vec v : List ℚ) (k : Nat),
      repopulateLoop b s e fuel i vec = some v →
      repopulateLoop b s e (fuel + k) i vec = some v := by
  intro fuel
  induction fuel with
  | zero =>
    intro i vec v k h
    cases h
  | succ fuel ih =>
    intro i vec v k h
    rw [show fuel + 1 + k = (fuel + k) + 1 by omega, repopulateLoop_succ]
    rw [repopulateLoop_succ] at h
    by_cases h1 : s > 0 ∧ b + (i : ℚ) * s > e
    · rw [if_pos h1] at h ⊢
      exact h
    · rw [if_neg h1] at h ⊢
      by_cases h2 : s < 0 ∧ b + (i : ℚ) * s < e
      · rw [if_pos h2] at h ⊢
        exact h
      · rw [if_neg h2] at h ⊢
        exact ih _ _ _ k h

lemma repopulateLoop_eq_progression (b s e : ℚ) (hs : s ≠ 0) (h0 : 0 ≤ (e - b) / s)
    (fuel : Nat) :
    repopulateLoop b s e (⌊(e - b) / s⌋₊ + 2 + fuel) 0 [] = some (progression b s e) := by
  have h := repopulateLoop_run b s e hs h0 (⌊(e - b) / s⌋₊ + 1) 0 [] fuel (by omega)
  rw [h, progression, List.range_eq_range']
  simp

lemma repopulateLoop_unique (b s e : ℚ) (hs : s ≠ 0) (h0 : 0 ≤ (e - b) / s)
    (fuel : Nat) (v : List ℚ) (h : repopulateLoop b s e fuel 0 [] = some v) :
    v = progression b s e := by
  have h1 := repopulateLoop_mono b s e fuel 0 [] v (⌊(e - b) / s⌋₊ + 2) h
  have h2 := repopulateLoop_eq_progression b s e hs h0 fuel
  rw [Nat.add_comm] at h1
  rw [h1] at h2
  exact Option.some.inj h2

lemma progression_mem (b s e : ℚ) (hs : s ≠ 0) (h0 : 0 ≤ (e - b) / s) :
    ∀ x ∈ progression b s e, (b ≤ x ∧ x ≤ e) ∨ (e ≤ x ∧ x ≤ b) := by
  intro x hx
  rw [progression, List.mem_map] at hx
  obtain ⟨i, hi, rfl⟩ := hx
  have hi2 : i ≤ ⌊(e - b) / s⌋₊ := by
    have := List.mem_range.mp hi
    omega
  have hle : (i : ℚ) ≤ (e - b) / s := (Nat.le_floor_iff h0).mp hi2
  have hi0 : (0 : ℚ) ≤ (i : ℚ) := Nat.cast_nonneg i
  rcases lt_or_gt_of_ne hs with hneg | hpos
  · right
    rw [le_div_iff_of_neg hneg] at hle
    constructor
    · linarith
    · nlinarith
  · left
    rw [le_div_iff₀ hpos] at hle
    constructor
    · nlinarith
    · linarith

lemma progression_length (b s e : ℚ) :
    (progression b s e).length = ⌊(e - b) / s⌋₊ + 1 := by
  simp [progression]

lemma range_unfold (fuel : Nat) (b s e : ℚ) :
    ParsePressureLevelsRange fuel true [b, s, e] =
      if s = 0 then some (.error .zeroStep)
      else if (e - b) / s > 10000 then some (.error .tooManyLevels)
      else if (e - b) / s < 0 then some (.error .signMismatch)
      else (repopulateLoop b s e fuel 0 []).map .ok := by
  simp [ParsePressureLevelsRange, DataVector.get]

lemma range_ok (b s e : ℚ) (hs : s ≠ 0) (h0 : 0 ≤ (e - b) / s) (h1 : (e - b) / s ≤ 10000)
    (fuel : Nat) :
    ParsePressureLevelsRange (⌊(e - b) / s⌋₊ + 2 + fuel) true [b, s, e]
      = some (.ok (progression b s e)) := by
  rw [range_unfold, if_neg hs, if_neg (not_lt.mpr h1), if_neg (not_lt.mpr h0),
    repopulateLoop_eq_progression b s e hs h0 fuel]
  rfl

lemma range_ok_unique (b s e : ℚ) (hs : s ≠ 0) (h0 : 0 ≤ (e - b) / s)
    (h1 : (e - b) / s ≤ 10000) (fuel : Nat) (r : Except PressureLevelError (List ℚ))
    (h : ParsePressureLevelsRange fuel true [b, s, e] = some r) :
    r = .ok (progression b s e) := by
  rw [range_unfold, if_neg hs, if_neg (not_lt.mpr h1), if_neg (not_lt.mpr h0)] at h
  cases hl : repopulateLoop b s e fuel 0 [] with
  | none =>
    rw [hl] at h
    cases h
  | some v =>
    rw [hl] at h
    rw [← repopulateLoop_unique b s e hs h0 fuel v hl]
    exact (Option.some.inj h).symm

/-! ## Claims about the range mode of `ParsePressureLevels` -/

/-- Claim C21: range expansion over exact arithmetic. When range mode has parsed
exactly three values `(begin, step, end)` with `step != 0` and
`0 <= (end - begin)/step <= 10000`, the loop terminates and the output vector is
exactly the progression `begin + i*step` for `i = 0, ..., floor((end - begin)/step)`,
every level lying between `begin` and `end` inclusive. When `step = 0`, when
`(end - begin)/step < 0`, when `(end - begin)/step > 10000`, or when the number of
parsed values is not three, an exception is raised instead. -/
theorem range_expansion (dPressureBegin dPressureStep dPressureEnd : ℚ)
    (vecPressureLevels : List ℚ) :
    (dPressureStep ≠ 0 → 0 ≤ (dPressureEnd - dPressureBegin) / dPressureStep →
      (dPressureEnd - dPressureBegin) / dPressureStep ≤ 10000 →
      (∀ fuel, ParsePressureLevelsRange
          (⌊(dPressureEnd - dPressureBegin) / dPressureStep⌋₊ + 2 + fuel) true
          [dPressureBegin, dPressureStep, dPressureEnd]
        = some (.ok (progression dPressureBegin dPressureStep dPressureEnd))) ∧
      (∀ fuel r, ParsePressureLevelsRange fuel true
          [dPressureBegin, dPressureStep, dPressureEnd] = some r →
        r = .ok (progression dPressureBegin dPressureStep dPressureEnd)) ∧
      (∀ x ∈ progression dPressureBegin dPressureStep dPressureEnd,
        (dPressureBegin ≤ x ∧ x ≤ dPressureEnd) ∨
          (dPressureEnd ≤ x ∧ x ≤ dPressureBegin))) ∧
    (dPressureStep = 0 →
      ∀ fuel, ParsePressureLevelsRange fuel true
          [dPressureBegin, dPressureStep, dPressureEnd]
        = some (.error .zeroStep)) ∧
    (dPressureStep ≠ 0 → (dPressureEnd - dPressureBegin) / dPressureStep < 0 →
      ∀ fuel, ParsePressureLevelsRange fuel true
          [dPressureBegin, dPressureStep, dPressureEnd]
        = some (.error .signMismatch)) ∧
    (dPressureStep ≠ 0 → (dPressureEnd - dPressureBegin) / dPressureStep > 10000 →
      ∀ fuel, ParsePressureLevelsRange fuel true
          [dPressureBegin, dPressureStep, dPressureEnd]
        = some (.error .tooManyLevels)) ∧
    (vecPressureLevels.length ≠ 3 →
      ∀ fuel, ParsePressureLevelsRange fuel true vecPressureLevels
        = some (.error .notThreeEntries)) := by
  refine ⟨fun hs h0 h1 => ⟨range_ok _ _ _ hs h0 h1, range_ok_unique _ _ _ hs h0 h1,
    progression_mem _ _ _ hs h0⟩, ?_, ?_, ?_, ?_⟩
  · intro hs fuel
    rw [range_unfold, if_pos hs]
  · intro hs hneg fuel
    have h1 : ¬ (dPressureEnd - dPressureBegin) / dPressureStep > 10000 := by
      intro h
      linarith
    rw [range_unfold, if_neg hs, if_neg h1, if_pos hneg]
  · intro hs hbig fuel
    rw [range_unfold, if_neg hs, if_pos hbig]
  · intro hlen fuel
    simp [ParsePressureLevelsRange, hlen]

/-- Witness for C21: with `begin = 1000`, `step = -100`, `end = 500` the three
conditions hold and the output is the progression, whose levels lie between 500
and 1000. -/
theorem range_expansion_witness :
    ((-100 : ℚ) ≠ 0 ∧ (0 : ℚ) ≤ (500 - 1000) / (-100) ∧ ((500 : ℚ) - 1000) / (-100) ≤ 10000) ∧
    ParsePressureLevelsRange (⌊((500 : ℚ) - 1000) / (-100)⌋₊ + 2 + 0) true [1000, -100, 500]
      = some (.ok (progression 1000 (-100) 500)) ∧
    (∀ x ∈ progression 1000 (-100) 500,
      ((1000 : ℚ) ≤ x ∧ x ≤ 500) ∨ ((500 : ℚ) ≤ x ∧ x ≤ 1000)) :=
  have h := (range_expansion 1000 (-100) 500 []).1 (by norm_num) (by norm_num) (by norm_num)
  ⟨⟨by norm_num, by norm_num, by norm_num⟩, h.1 0, h.2.2⟩

/-- Claim C22, evaluated at `begin = 0`, `step = 1`, `end = 10000`: the range
expansion returns without raising and leaves 10001 entries, one more than the
limit of 10000 that the message of line 185 names. Whenever the ratio
`(end - begin)/step` is below 10000 the vector returned has at most 10000
entries. -/
theorem range_returns_10001_levels :
    ParsePressureLevelsRange 10002 true [0, 1, 10000]
      = some (.ok (progression 0 1 10000)) ∧
    (progression 0 1 10000).length = 10001 ∧
    (∀ b s e : ℚ, 0 ≤ (e - b) / s → (e - b) / s < 10000 →
      (progression b s e).length ≤ 10000) := by
  have hfl : ⌊((10000 : ℚ) - 0) / 1⌋₊ = 10000 := by
    norm_num
  refine ⟨?_, ?_, ?_⟩
  · have h := range_ok 0 1 10000 (by norm_num) (by norm_num) (by norm_num) 0
    rw [hfl] at h
    exact h
  · rw [progression_length, hfl]
  · intro b s e h0 h1
    rw [progression_length]
    have h2 : ⌊(e - b) / s⌋₊ < 10000 := (Nat.floor_lt h0).mpr (by exact_mod_cast h1)
    omega

/-! ## `InterpolationWeightsLinear`: shared lemmas -/

lemma get_set_eq (l : List ℚ) (i : Nat) (v : ℚ) (h : i < l.length) :
    DataVector.get (l.set i v) i = v := by
  simp [DataVector.get, List.getD_eq_getElem?_getD, h]

lemma get_set_ne (l : List ℚ) (i j : Nat) (v : ℚ) (h : i ≠ j) :
    DataVector.get (l.set i v) j = DataVector.get l j := by
  simp [DataVector.get, List.getD_eq_getElem?_getD, List.getElem?_set_ne h]

lemma interiorLoop_succ (dP : ℚ) (dataP : List ℚ) (nLev fuel k : Nat)
    (out : InterpolationWeights) :
    interiorLoop dP dataP nLev (fuel + 1) k out =
      if k < nLev - 1 then
        if dP ≥ DataVector.get dataP (k + 1) then
          { kBegin := k, kEnd := k + 2,
            dW := (out.dW.set k
                ((DataVector.get dataP (k + 1) - dP)
                  / (DataVector.get dataP (k + 1) - DataVector.get dataP k))).set (k + 1)
              (1.0 - DataVector.get (out.dW.set k
                ((DataVector.get dataP (k + 1) - dP)
                  / (DataVector.get dataP (k + 1) - DataVector.get dataP k))) k) }
        else interiorLoop dP dataP nLev fuel (k + 1) out
      else out := rfl

/-- The loop of the interior branch stops at the smallest `k` with
`dP >= dataP[k+1]`, which exists when `dP >= dataP[nLev-1]`. -/
lemma interiorLoop_finds (dP : ℚ) (dataP : List ℚ) (out : InterpolationWeights)
    (hn : 2 ≤ dataP.length)
    (hlo : DataVector.get dataP (dataP.length - 1) ≤ dP) :
    ∀ (fuel k : Nat), dataP.length - 1 ≤ k + fuel → k ≤ dataP.length - 1 →
      (∀ j, j < k → dP < DataVector.get dataP (j + 1)) →
      ∃ k2, k2 + 1 < dataP.length ∧ dP ≥ DataVector.get dataP (k2 + 1) ∧
        (∀ j, j < k2 → dP < DataVector.get dataP (j + 1)) ∧
        interiorLoop dP dataP dataP.length fuel k out =
          { kBegin := k2, kEnd := k2 + 2,
            dW := (out.dW.set k2
                ((DataVector.get dataP (k2 + 1) - dP)
                  / (DataVector.get dataP (k2 + 1) - DataVector.get dataP k2))).set (k2 + 1)
              (1.0 - DataVector.get (out.dW.set k2
                ((DataVector.get dataP (k2 + 1) - dP)
                  / (DataVector.get dataP (k2 + 1) - DataVector.get dataP k2))) k2) } := by
  have hlast : ∀ k, k = dataP.length - 1 →
      ¬ (∀ j, j < k → dP < DataVector.get dataP (j + 1)) := by
    intro k hk hall
    have h1 := hall (k - 1) (by omega)
    rw [show k - 1 + 1 = dataP.length - 1 by omega] at h1
    exact absurd hlo (not_le.mpr h1)
  intro fuel
  induction fuel with
  | zero =>
    intro k h1 h2 hall
    exact absurd hall (hlast k (by omega))
  | succ fuel ih =>
    intro k h1 h2 hall
    by_cases hk : k = dataP.length - 1
    · exact absurd hall (hlast k hk)
    · have hlt : k < dataP.length - 1 := by omega
      rw [interiorLoop_succ, if_pos hlt]
      by_cases hge : dP ≥ DataVector.get dataP (k + 1)
      · rw [if_pos hge]
        exact ⟨k, by omega, hge, hall, rfl⟩
      · rw [if_neg hge]
        apply ih (k + 1) (by omega) (by omega)
        intro j hj
        rcases Nat.lt_succ_iff_lt_or_eq.mp hj with h | h
        · exact hall j h
        · rw [h]
          exact not_le.mp hge

lemma interior_weights (p0 p1 dP : ℚ) (hdec : p1 < p0) (h1 : p1 ≤ dP) (h0 : dP ≤ p0) :
    0 ≤ (p1 - dP) / (p1 - p0) ∧ (p1 - dP) / (p1 - p0) ≤ 1 ∧
    (p1 - dP) / (p1 - p0) + (1 - (p1 - dP) / (p1 - p0)) = 1 ∧
    (p1 - dP) / (p1 - p0) * p0 + (1 - (p1 - dP) / (p1 - p0)) * p1 = dP := by
  have hd : p1 - p0 < 0 := by linarith
  have hd0 : p1 - p0 ≠ 0 := ne_of_lt hd
  refine ⟨div_nonneg_of_nonpos (by linarith) hd.le, ?_, by ring, ?_⟩
  · rw [div_le_one_of_neg hd]
    linarith
  · field_simp
    ring

/-! ## Claim about `InterpolationWeightsLinear` -/

/-- Claim C23: interior branch, over exact arithmetic. For a pressure column
`dataP` with `nLev >= 2` strictly decreasing entries, a weight vector with room
for `nLev` entries, and `dataP[nLev-1] <= dP <= dataP[0]`, the function sets
`kBegin = k` and `kEnd = k + 2` for the smallest `k` with `dP >= dataP[k+1]`, and
the two weights it writes satisfy `0 <= dW[k] <= 1`, `dW[k] + dW[k+1] = 1` and
`dW[k]*dataP[k] + dW[k+1]*dataP[k+1] = dP`. -/
theorem interpolation_weights_interior (kUndeclared : Nat) (dP : ℚ) (dataP : List ℚ)
    (out : InterpolationWeights)
    (hn : 2 ≤ dataP.length)
    (hdec : ∀ i, i + 1 < dataP.length →
      DataVector.get dataP (i + 1) < DataVector.get dataP i)
    (hlo : DataVector.get dataP (dataP.length - 1) ≤ dP)
    (hhi : dP ≤ DataVector.get dataP 0)
    (hW : dataP.length ≤ out.dW.length) :
    ∃ k, k + 1 < dataP.length ∧ dP ≥ DataVector.get dataP (k + 1) ∧
      (∀ j, j < k → ¬ dP ≥ DataVector.get dataP (j + 1)) ∧
      (InterpolationWeightsLinear kUndeclared dP dataP out).kBegin = k ∧
      (InterpolationWeightsLinear kUndeclared dP dataP out).kEnd = k + 2 ∧
      0 ≤ DataVector.get (InterpolationWeightsLinear kUndeclared dP dataP out).dW k ∧
      DataVector.get (InterpolationWeightsLinear kUndeclared dP dataP out).dW k ≤ 1 ∧
      DataVector.get (InterpolationWeightsLinear kUndeclared dP dataP out).dW k
        + DataVector.get (InterpolationWeightsLinear kUndeclared dP dataP out).dW (k + 1)
        = 1 ∧
      DataVector.get (InterpolationWeightsLinear kUndeclared dP dataP out).dW k
          * DataVector.get dataP k
        + DataVector.get (InterpolationWeightsLinear kUndeclared dP dataP out).dW (k + 1)
          * DataVector.get dataP (k + 1)
        = dP := by
  obtain ⟨k, hk, hge, hmin, hloop⟩ :=
    interiorLoop_finds dP dataP out hn hlo dataP.length 0 (by omega) (by omega)
      (fun j hj => absurd hj (Nat.not_lt_zero j))
  have hrun : InterpolationWeightsLinear kUndeclared dP dataP out
      = interiorLoop dP dataP dataP.length dataP.length 0 out := by
    unfold InterpolationWeightsLinear
    simp only []
    rw [if_neg (not_lt.mpr hhi), if_neg (not_lt.mpr hlo)]
  have hle : dP ≤ DataVector.get dataP k := by
    cases k with
    | zero => exact hhi
    | succ j => exact (hmin j (Nat.lt_succ_self j)).le
  have hone : (1.0 : ℚ) = 1 := by norm_num
  have hk1 : k < out.dW.length := by omega
  have hk2 : k + 1 < (out.dW.set k
      ((DataVector.get dataP (k + 1) - dP)
        / (DataVector.get dataP (k + 1) - DataVector.get dataP k))).length := by
    rw [List.length_set]
    omega
  obtain ⟨w0, w1, wsum, wint⟩ := interior_weights (DataVector.get dataP k)
    (DataVector.get dataP (k + 1)) dP (hdec k hk) hge hle
  refine ⟨k, hk, hge, fun j hj => not_le.mpr (hmin j hj), ?_, ?_, ?_, ?_, ?_, ?_⟩
  · rw [hrun, hloop]
  · rw [hrun, hloop]
  · rw [hrun, hloop]
    simp only []
    rw [get_set_ne _ _ _ _ (Nat.succ_ne_self k), get_set_eq _ _ _ hk1]
    exact w0
  · rw [hrun, hloop]
    simp only []
    rw [get_set_ne _ _ _ _ (Nat.succ_ne_self k), get_set_eq _ _ _ hk1]
    exact w1
  · rw [hrun, hloop]
    simp only []
    rw [get_set_ne _ _ _ _ (Nat.succ_ne_self k), get_set_eq _ _ _ hk2,
      get_set_eq _ _ _ hk1, hone]
    exact wsum
  · rw [hrun, hloop]
    simp only []
    rw [get_set_ne _ _ _ _ (Nat.succ_ne_self k), get_set_eq _ _ _ hk2,
      get_set_eq _ _ _ hk1, hone]
    exact wint

/-- Witness for C23: the column `1000, 900, 800, 700` is strictly decreasing and
`dP = 850` lies within it; the function then brackets `dP` between levels 1 and
2 with weights that sum to 1 and reproduce 850. -/
theorem interpolation_weights_interior_witness :
    ∃ k, k + 1 < [(1000 : ℚ), 900, 800, 700].length ∧
      (850 : ℚ) ≥ DataVector.get [1000, 900, 800, 700] (k + 1) ∧
      (∀ j, j < k → ¬ (850 : ℚ) ≥ DataVector.get [1000, 900, 800, 700] (j + 1)) ∧
      (InterpolationWeightsLinear 0 850 [1000, 900, 800, 700] ⟨0, 0, [0, 0, 0, 0]⟩).kBegin
        = k ∧
      (InterpolationWeightsLinear 0 850 [1000, 900, 800, 700] ⟨0, 0, [0, 0, 0, 0]⟩).kEnd
        = k + 2 ∧
      0 ≤ DataVector.get
        (InterpolationWeightsLinear 0 850 [1000, 900, 800, 700] ⟨0, 0, [0, 0, 0, 0]⟩).dW k ∧
      DataVector.get
        (InterpolationWeightsLinear 0 850 [1000, 900, 800, 700] ⟨0, 0, [0, 0, 0, 0]⟩).dW k
          ≤ 1 ∧
      DataVector.get
        (InterpolationWeightsLinear 0 850 [1000, 900, 800, 700] ⟨0, 0, [0, 0, 0, 0]⟩).dW k
        + DataVector.get
          (InterpolationWeightsLinear 0 850 [1000, 900, 800, 700] ⟨0, 0, [0, 0, 0, 0]⟩).dW
            (k + 1)
        = 1 ∧
      DataVector.get
        (InterpolationWeightsLinear 0 850 [1000, 900, 800, 700] ⟨0, 0, [0, 0, 0, 0]⟩).dW k
          * DataVector.get [1000, 900, 800, 700] k
        + DataVector.get
          (InterpolationWeightsLinear 0 850 [1000, 900, 800, 700] ⟨0, 0, [0, 0, 0, 0]⟩).dW
            (k + 1)
          * DataVector.get [1000, 900, 800, 700] (k + 1)
        = 850 :=
  interpolation_weights_interior 0 850 [1000, 900, 800, 700] ⟨0, 0, [0, 0, 0, 0]⟩
    (by decide)
    (by
      intro i hi
      have hi4 : i < 3 := Nat.lt_of_succ_lt_succ hi
      interval_cases i <;> norm_num [DataVector.get])
    (by norm_num [DataVector.get])
    (by norm_num [DataVector.get])
    (by decide)

/-! ## The final pass of `Step` -/

end Tempest
